import Mathlib

/-!
Shared-Bath: state-synchronisation core.

A shallow embedding of `src/server.js` (the authoritative store, the presence
set and the three socket handlers) and of the state-holding part of
`src/public/app.js` (the client's `handleAction`), followed by the theorems
that settle the specification's claims about them.

Modelling conventions
* The two state fields are JavaScript numbers that only ever hold integers;
  they are `Int` here.
* A payload received over the wire is an arbitrary JavaScript value, modelled
  by `JsValue`; the `switch` statements compare it with `===` against four
  string literals, which is equality with `JsValue.str _`.
* `connectedUsers` is a JavaScript `Set` of strings: an insertion-ordered
  collection without duplicates (`JsSet`).
* `console.log` calls and DOM updates are not part of the state and are left
  out.
* socket.io is the transport.  It hands every connection a fresh socket, runs
  a socket's `action`/`disconnect` callbacks only once they are registered by
  the connection handler, delivers `io.emit` to the sockets connected at the
  time of the call (the new socket included, a closed socket excluded) and
  `socket.emit` to that socket alone.
-/

namespace SharedBath

/-! ## JavaScript values and helpers -/

/-- A JavaScript value as it can arrive in an event payload. -/
inductive JsValue where
  | undefined
  | null
  | bool (b : Bool)
  | num (n : Int)
  | str (s : String)
deriving DecidableEq, Repr

/-- `Math.min` on two integer-valued numbers. -/
def Math.min (a b : Int) : Int := if a ≤ b then a else b

/-- `Math.max` on two integer-valued numbers. -/
def Math.max (a b : Int) : Int := if a ≤ b then b else a

/-! ## Shared state -/

/-- The object `{ waterLevel, temperature }` held by `globalState` on the
server and by `localState` on the client. -/
structure State where
  waterLevel : Int
  temperature : Int
deriving DecidableEq, Repr

/-- The server's `globalState` initialiser (`server.js` l.17-20); the client's
`localState` initialiser is the same object literal (`app.js` l.10-13). -/
def initialState : State := { waterLevel := 0, temperature := 0 }

/-- The body of the server's `socket.on('action')` callback up to the end of
the `switch` (`server.js` l.61-89): the new `globalState` and the final value
of the local variable `changed`. -/
def actionSwitch (globalState : State) (payload : JsValue) : State × Bool :=
  if payload = JsValue.str "FILL" then
    if globalState.waterLevel < 100 then
      ({ globalState with waterLevel := Math.min 100 (globalState.waterLevel + 2) }, true)
    else (globalState, false)
  else if payload = JsValue.str "DRAIN" then
    if globalState.waterLevel > 0 then
      ({ globalState with waterLevel := Math.max 0 (globalState.waterLevel - 2) }, true)
    else (globalState, false)
  else if payload = JsValue.str "HEAT" then
    if globalState.temperature < 100 then
      ({ globalState with temperature := Math.min 100 (globalState.temperature + 2) }, true)
    else (globalState, false)
  else if payload = JsValue.str "COOL" then
    if globalState.temperature > 0 then
      ({ globalState with temperature := Math.max 0 (globalState.temperature - 2) }, true)
    else (globalState, false)
  else (globalState, false)

/-! ## Client -/

/-- The client's two state variables `isOnline` and `localState`
(`app.js` l.9-13). -/
structure Client where
  isOnline : Bool
  localState : State
deriving DecidableEq, Repr

/-- A message the client sends to the server with `socket.emit`. -/
inductive ClientEmit where
  | action (actionType : JsValue)
deriving DecidableEq, Repr

/-- The `switch` of the offline branch of `handleAction` (`app.js` l.103-116). -/
def localSwitch (localState : State) (actionType : JsValue) : State :=
  if actionType = JsValue.str "FILL" then
    { localState with waterLevel := Math.min 100 (localState.waterLevel + 2) }
  else if actionType = JsValue.str "DRAIN" then
    { localState with waterLevel := Math.max 0 (localState.waterLevel - 2) }
  else if actionType = JsValue.str "HEAT" then
    { localState with temperature := Math.min 100 (localState.temperature + 2) }
  else if actionType = JsValue.str "COOL" then
    { localState with temperature := Math.max 0 (localState.temperature - 2) }
  else localState

/-- The function `handleAction` (`app.js` l.92-119): the client after the call
and the messages it sent. -/
def handleAction (c : Client) (actionType : JsValue) : Client × List ClientEmit :=
  if c.isOnline then
    (c, [ClientEmit.action actionType])
  else
    ({ c with localState := localSwitch c.localState actionType }, [])

/-- A client in local-simulation mode holding `s`. -/
def offlineClient (s : State) : Client := { isOnline := false, localState := s }

/-! ## Strings -/

/-- The code points that `String.prototype.trim` removes: the ECMAScript
WhiteSpace and LineTerminator characters. -/
def isTrimChar (c : Char) : Bool :=
  c.val = 0x09 || c.val = 0x0A || c.val = 0x0B || c.val = 0x0C || c.val = 0x0D ||
  c.val = 0x20 || c.val = 0xA0 || c.val = 0x1680 ||
  (0x2000 ≤ c.val && c.val ≤ 0x200A) ||
  c.val = 0x2028 || c.val = 0x2029 || c.val = 0x202F || c.val = 0x205F ||
  c.val = 0x3000 || c.val = 0xFEFF

/-- `s.trim()`. -/
def jsTrim (s : String) : String :=
  String.mk ((s.data.dropWhile isTrimChar).reverse.dropWhile isTrimChar).reverse

/-- The pieces of a character list between the occurrences of `sep`; there is
always at least one piece. -/
def splitChars (sep : Char) : List Char → List (List Char)
  | [] => [[]]
  | c :: cs =>
    let r := splitChars sep cs
    if c = sep then [] :: r else (c :: r.headD []) :: r.tail

/-- `s.split(sep)` for a one-character separator. -/
def jsSplit (s : String) (sep : Char) : List String :=
  (splitChars sep s.data).map String.mk

/-- When `s` begins with `pat`, what follows that occurrence of `pat`. -/
def dropPattern : List Char → List Char → Option (List Char)
  | [], s => some s
  | _ :: _, [] => none
  | p :: ps, c :: cs => if p = c then dropPattern ps cs else none

/-- Replace the leftmost occurrence of `pat` in a character list by `rep`. -/
def replaceChars (pat rep : List Char) : List Char → List Char
  | [] =>
    match dropPattern pat [] with
    | some rest => rep ++ rest
    | none => []
  | c :: cs =>
    match dropPattern pat (c :: cs) with
    | some rest => rep ++ rest
    | none => c :: replaceChars pat rep cs

/-- `s.replace(pat, rep)` for a string pattern and a replacement string
without `$`: only the first occurrence is replaced. -/
def jsReplace (s pat rep : String) : String :=
  String.mk (replaceChars pat.data rep.data s.data)

/-- The function `maskIP` (`server.js` l.26-37).  The argument is `none` for
`undefined`/`null`; the empty string is the only falsy string. -/
def maskIP (ip : Option String) : String :=
  match ip with
  | none => "UNKNOWN"
  | some ip =>
    if ip = "" then "UNKNOWN"
    else
      let cleanIp := jsReplace ip "::ffff:" ""
      let parts := jsSplit cleanIp '.'
      match parts with
      | [p0, _, p2, _] => p0 ++ ".***." ++ p2 ++ ".***"
      | _ => "Anonymous"

/-! ## Presence set -/

/-- A JavaScript `Set` of strings: its elements in insertion order, without
duplicates. -/
structure JsSet where
  items : List String
  nodup : items.Nodup

namespace JsSet

/-- The value of `new Set()`. -/
def empty : JsSet := ⟨[], List.nodup_nil⟩

/-- The value of `set.has(x)`. -/
def has (s : JsSet) (x : String) : Bool := decide (x ∈ s.items)

/-- The set after `set.add(x)`: a new element goes last, a present one changes
nothing. -/
def add (s : JsSet) (x : String) : JsSet :=
  if h : x ∈ s.items then s
  else ⟨s.items ++ [x], List.Nodup.append s.nodup (List.nodup_singleton x)
    (by
      intro a ha hx
      rw [List.mem_singleton] at hx
      exact h (hx ▸ ha))⟩

/-- The set after `set.delete(x)`. -/
def delete (s : JsSet) (x : String) : JsSet :=
  ⟨s.items.erase x, s.nodup.erase x⟩

/-- The value of `set.size`. -/
def size (s : JsSet) : Nat := s.items.length

/-- The value of `Array.from(set)`. -/
def toArray (s : JsSet) : List String := s.items

end JsSet

/-! ## Server -/

/-- The part of `socket.handshake` that the connection handler reads: the
`x-forwarded-for` request header (absent or a string) and the transport
address (a string in socket.io's `Handshake` interface). -/
structure Handshake where
  xForwardedFor : Option String
  address : String
deriving DecidableEq, Repr

/-- The value of `rawIp` (`server.js` l.42): `||` takes the header unless it is
`undefined` or empty. -/
def rawIp (h : Handshake) : String :=
  let chosen :=
    match h.xForwardedFor with
    | none => h.address
    | some v => if v = "" then h.address else v
  jsTrim ((jsSplit chosen ',').headD "")

/-- The value of `maskedIp` (`server.js` l.44). -/
def maskedIpOf (h : Handshake) : String := maskIP (some (rawIp h))

/-- A message the server sends. -/
inductive Msg where
  | init (state : State) (userIp : String) (userList : List String)
  | update (state : State)
  | updateUserList (userList : List String)
deriving DecidableEq, Repr

/-- One emit call of the server: `socket.emit` on the socket `id`, or `io.emit`
with the sockets that were connected when it was called. -/
inductive Emit where
  | socketEmit (id : Nat) (msg : Msg)
  | ioEmit (connected : List Nat) (msg : Msg)
deriving DecidableEq, Repr

/-- An open connection: the socket and the `maskedIp` captured by the callbacks
registered on it. -/
structure Socket where
  id : Nat
  maskedIp : String
deriving DecidableEq, Repr

/-- The server: the two module-level variables, the open sockets and the
number of sockets created so far (the next fresh socket). -/
structure Server where
  globalState : State
  connectedUsers : JsSet
  sockets : List Socket
  nextId : Nat

/-- The server when it starts listening. -/
def initialServer : Server :=
  { globalState := initialState, connectedUsers := JsSet.empty, sockets := [], nextId := 0 }

/-- The ids of the connected sockets, the recipients of an `io.emit`. -/
def Server.connectedIds (srv : Server) : List Nat := srv.sockets.map Socket.id

/-- The `io.on('connection')` callback up to the registration of the socket's
callbacks (`server.js` l.40-57), run for the fresh socket `srv.nextId`. -/
def connectionHandler (srv : Server) (h : Handshake) : Server × List Emit :=
  let maskedIp := maskedIpOf h
  let socket : Socket := { id := srv.nextId, maskedIp := maskedIp }
  let connectedUsers := srv.connectedUsers.add maskedIp
  let srv1 : Server :=
    { srv with connectedUsers := connectedUsers
               sockets := srv.sockets ++ [socket]
               nextId := srv.nextId + 1 }
  (srv1,
    [Emit.socketEmit socket.id (Msg.init srv.globalState maskedIp connectedUsers.toArray),
     Emit.ioEmit srv1.connectedIds (Msg.updateUserList connectedUsers.toArray)])

/-- The `socket.on('action')` callback (`server.js` l.60-96). -/
def actionHandler (srv : Server) (payload : JsValue) : Server × List Emit :=
  let r := actionSwitch srv.globalState payload
  let srv1 : Server := { srv with globalState := r.1 }
  if r.2 then (srv1, [Emit.ioEmit srv1.connectedIds (Msg.update r.1)])
  else (srv1, [])

/-- The `socket.on('disconnect')` callback of `socket` (`server.js` l.99-103);
the transport has removed the socket from the connected ones before it runs. -/
def disconnectHandler (srv : Server) (socket : Socket) : Server × List Emit :=
  let connectedUsers := srv.connectedUsers.delete socket.maskedIp
  let srv1 : Server :=
    { srv with connectedUsers := connectedUsers
               sockets := srv.sockets.filter (fun s => s.id != socket.id) }
  (srv1, [Emit.ioEmit srv1.connectedIds (Msg.updateUserList connectedUsers.toArray)])

/-- An event processed by the server's event loop. -/
inductive Event where
  | connection (h : Handshake)
  | action (id : Nat) (payload : JsValue)
  | disconnect (id : Nat)
deriving DecidableEq, Repr

/-- The connected socket with the given id, if any. -/
def Server.socket? (srv : Server) (id : Nat) : Option Socket :=
  srv.sockets.find? (fun s => s.id == id)

/-- One turn of the event loop.  An `action` or `disconnect` event of a socket
that is not connected finds no registered callback and does nothing. -/
def step (srv : Server) : Event → Server × List Emit
  | Event.connection h => connectionHandler srv h
  | Event.action id payload =>
    match srv.socket? id with
    | some _ => actionHandler srv payload
    | none => (srv, [])
  | Event.disconnect id =>
    match srv.socket? id with
    | some socket => disconnectHandler srv socket
    | none => (srv, [])

/-- Process a list of events in order: the final server and every emit call
made, oldest first. -/
def run (srv : Server) : List Event → Server × List Emit
  | [] => (srv, [])
  | e :: es =>
    let r1 := step srv e
    let r2 := run r1.1 es
    (r2.1, r1.2 ++ r2.2)

/-- Whether an emit call reaches the socket `c`. -/
def Emit.reaches (c : Nat) : Emit → Bool
  | Emit.socketEmit id _ => id == c
  | Emit.ioEmit connected _ => decide (c ∈ connected)

/-- The message carried by an emit call. -/
def Emit.msg : Emit → Msg
  | Emit.socketEmit _ m => m
  | Emit.ioEmit _ m => m

/-- The messages delivered to the socket `c`, oldest first. -/
def delivered (c : Nat) (log : List Emit) : List Msg :=
  (log.filter (Emit.reaches c)).map Emit.msg

/-- Whether a message is an `init`. -/
def Msg.isInit : Msg → Bool
  | Msg.init _ _ _ => true
  | _ => false

/-- Whether an emit call is an `update` broadcast. -/
def Emit.isUpdate : Emit → Bool
  | Emit.ioEmit _ (Msg.update _) => true
  | _ => false

/-- The number of `connection` events in a list of events, which is the number
of sockets it creates: they are the sockets `0`, ..., `connectionCount evs - 1`
when the server starts from `initialServer`. -/
def connectionCount : List Event → Nat
  | [] => 0
  | Event.connection _ :: es => connectionCount es + 1
  | Event.action _ _ :: es => connectionCount es
  | Event.disconnect _ :: es => connectionCount es

/-- A server holding the shared state `s`, with nobody connected. -/
def serverWith (s : State) : Server := { initialServer with globalState := s }

/-- The server's `globalState` after each of the given `action` payloads has
been handled, in order (the state before the first one is not listed). -/
def serverTrajectory (srv : Server) : List JsValue → List State
  | [] => []
  | p :: ps =>
    (actionHandler srv p).1.globalState :: serverTrajectory (actionHandler srv p).1 ps

/-- The client's `localState` after each of the given offline `handleAction`
calls, in order. -/
def localTrajectory (s : State) : List JsValue → List State
  | [] => []
  | p :: ps =>
    (handleAction (offlineClient s) p).1.localState ::
      localTrajectory (handleAction (offlineClient s) p).1.localState ps

/-- Both fields are within the closed interval [0,100]. -/
def InBounds (s : State) : Prop :=
  0 ≤ s.waterLevel ∧ s.waterLevel ≤ 100 ∧ 0 ≤ s.temperature ∧ s.temperature ≤ 100

instance (s : State) : Decidable (InBounds s) := by
  unfold InBounds; infer_instance

/-- The server's `globalState` after its action handler has handled the
string payload `tag`. -/
def stateAfter (srv : Server) (tag : String) : State :=
  (actionHandler srv (JsValue.str tag)).1.globalState

/-- The user list carried by an `init` or `updateUserList` message. -/
def Msg.userList? : Msg → Option (List String)
  | Msg.init _ _ userList => some userList
  | Msg.updateUserList userList => some userList
  | Msg.update _ => none

/-- Every connected socket was created before the next fresh one. -/
def Server.SocketsBelow (srv : Server) : Prop := ∀ s ∈ srv.sockets, s.id < srv.nextId

/-- The first message is an `init` and no later one is. -/
def InitFirst (msgs : List Msg) : Prop :=
  ∃ state userIp userList rest,
    msgs = Msg.init state userIp userList :: rest ∧ ∀ m ∈ rest, m.isInit = false

/-! ## Client: mode switch and socket events -/

/-- A call the mode switch makes on the client's socket. -/
inductive SocketCall where
  | connect
  | disconnect
deriving DecidableEq, Repr

/-- The `ui.modeToggle.onchange` callback (`app.js` l.131-150); `checked` is
`e.target.checked`.  Neither branch assigns `localState`. -/
def modeToggleOnchange (c : Client) (checked : Bool) : Client × List SocketCall :=
  let c1 : Client := { c with isOnline := checked }
  if c1.isOnline then (c1, [SocketCall.connect])
  else (c1, [SocketCall.disconnect])

/-- The payload of an `init` message as the client reads it. -/
structure InitData where
  state : State
  userIp : String
  userList : List String
deriving DecidableEq, Repr

/-- The client's `socket.on('init')` callback (`app.js` l.157-161). -/
def onInit (c : Client) (data : InitData) : Client :=
  { c with localState := data.state }

/-- The client's `socket.on('update')` callback (`app.js` l.164-174). -/
def onUpdate (c : Client) (newState : State) : Client :=
  if c.isOnline then { c with localState := newState } else c

/-- The client's handling of a message from the server; `updateUserList` only
redraws the list (`app.js` l.177-186). -/
def onMessage (c : Client) : Msg → Client
  | Msg.init state userIp userList =>
    onInit c { state := state, userIp := userIp, userList := userList }
  | Msg.update newState => onUpdate c newState
  | Msg.updateUserList _ => c

/-! ## Reachable server states -/

/-- Both fields are even. -/
def EvenState (s : State) : Prop := s.waterLevel % 2 = 0 ∧ s.temperature % 2 = 0

instance (s : State) : Decidable (EvenState s) := by
  unfold EvenState; infer_instance

/-- The identities (`maskedIp`) of the connected sockets, one entry per open
connection. -/
def Server.openIdentities (srv : Server) : List String := srv.sockets.map Socket.maskedIp

/-- No two connected sockets have the same id. -/
def Server.IdsNodup (srv : Server) : Prop := srv.connectedIds.Nodup

/-- The connected socket `id` has the same identity as another connected
socket. -/
def Server.SharesIdentity (srv : Server) (id : Nat) : Prop :=
  ∃ s ∈ srv.sockets, ∃ t ∈ srv.sockets, s.id = id ∧ t.id ≠ id ∧ t.maskedIp = s.maskedIp

instance (srv : Server) (id : Nat) : Decidable (srv.SharesIdentity id) := by
  unfold Server.SharesIdentity; infer_instance

/-- Along the run of `evs` from `srv`, no socket disconnects while another
connected socket has the same identity. -/
def NoSharedDisconnect (srv : Server) : List Event → Prop
  | [] => True
  | Event.connection h :: es => NoSharedDisconnect (step srv (Event.connection h)).1 es
  | Event.action id payload :: es =>
    NoSharedDisconnect (step srv (Event.action id payload)).1 es
  | Event.disconnect id :: es =>
    ¬ srv.SharesIdentity id ∧ NoSharedDisconnect (step srv (Event.disconnect id)).1 es

instance decidableNoSharedDisconnect : (srv : Server) → (evs : List Event) →
    Decidable (NoSharedDisconnect srv evs)
  | _, [] => by unfold NoSharedDisconnect; infer_instance
  | srv, Event.connection h :: es => by
    unfold NoSharedDisconnect
    exact decidableNoSharedDisconnect (step srv (Event.connection h)).1 es
  | srv, Event.action id payload :: es => by
    unfold NoSharedDisconnect
    exact decidableNoSharedDisconnect (step srv (Event.action id payload)).1 es
  | srv, Event.disconnect id :: es => by
    unfold NoSharedDisconnect
    exact @instDecidableAnd _ _ _
      (decidableNoSharedDisconnect (step srv (Event.disconnect id)).1 es)

/-- Every identity of the presence set is the identity of an open
connection. -/
def Server.NoGhost (srv : Server) : Prop :=
  ∀ x ∈ srv.connectedUsers.items, x ∈ srv.openIdentities

/-- The identity of every open connection is in the presence set. -/
def Server.AllPresent (srv : Server) : Prop :=
  ∀ x ∈ srv.openIdentities, x ∈ srv.connectedUsers.items

/-! ## Lemmas on the two switches -/

theorem actionHandler_globalState (srv : Server) (p : JsValue) :
    (actionHandler srv p).1.globalState = (actionSwitch srv.globalState p).1 := by
  simp only [actionHandler]
  split_ifs <;> rfl

theorem handleAction_offline (s : State) (p : JsValue) :
    (handleAction (offlineClient s) p).1.localState = localSwitch s p := by
  simp [handleAction, offlineClient]

theorem actionSwitch_inBounds (s : State) (p : JsValue) (h : InBounds s) :
    InBounds (actionSwitch s p).1 := by
  obtain ⟨w, t⟩ := s
  simp only [InBounds] at h
  simp only [actionSwitch, InBounds, Math.min, Math.max]
  split_ifs <;> dsimp only <;> omega

theorem localSwitch_inBounds (s : State) (p : JsValue) (h : InBounds s) :
    InBounds (localSwitch s p) := by
  obtain ⟨w, t⟩ := s
  simp only [InBounds] at h
  simp only [localSwitch, InBounds, Math.min, Math.max]
  split_ifs <;> dsimp only <;> omega

theorem actionSwitch_eq_localSwitch (s : State) (p : JsValue) (h : InBounds s) :
    (actionSwitch s p).1 = localSwitch s p := by
  obtain ⟨w, t⟩ := s
  simp only [InBounds] at h
  simp only [actionSwitch, localSwitch, Math.min, Math.max]
  split_ifs <;> first | rfl | (simp only [State.mk.injEq, and_true, true_and]; omega)

theorem serverTrajectory_inBounds (ps : List JsValue) :
    ∀ srv : Server, InBounds srv.globalState →
      ∀ s ∈ serverTrajectory srv ps, InBounds s := by
  induction ps with
  | nil => intro srv _ s hs; simp [serverTrajectory] at hs
  | cons p ps ih =>
    intro srv h s hs
    have hstep : InBounds (actionHandler srv p).1.globalState := by
      rw [actionHandler_globalState]; exact actionSwitch_inBounds _ _ h
    simp only [serverTrajectory, List.mem_cons] at hs
    rcases hs with rfl | hs
    · exact hstep
    · exact ih _ hstep s hs

theorem localTrajectory_inBounds (ps : List JsValue) :
    ∀ s0 : State, InBounds s0 → ∀ s ∈ localTrajectory s0 ps, InBounds s := by
  induction ps with
  | nil => intro s0 _ s hs; simp [localTrajectory] at hs
  | cons p ps ih =>
    intro s0 h s hs
    have hstep : InBounds (handleAction (offlineClient s0) p).1.localState := by
      rw [handleAction_offline]; exact localSwitch_inBounds _ _ h
    simp only [localTrajectory, List.mem_cons] at hs
    rcases hs with rfl | hs
    · exact hstep
    · exact ih _ hstep s hs

theorem actionSwitch_fill (s : State) :
    actionSwitch s (JsValue.str "FILL") =
      if s.waterLevel < 100 then
        ({ s with waterLevel := Math.min 100 (s.waterLevel + 2) }, true)
      else (s, false) := by
  unfold actionSwitch
  rw [if_pos rfl]

theorem actionSwitch_drain (s : State) :
    actionSwitch s (JsValue.str "DRAIN") =
      if s.waterLevel > 0 then
        ({ s with waterLevel := Math.max 0 (s.waterLevel - 2) }, true)
      else (s, false) := by
  unfold actionSwitch
  rw [if_neg (by decide), if_pos rfl]

theorem actionSwitch_heat (s : State) :
    actionSwitch s (JsValue.str "HEAT") =
      if s.temperature < 100 then
        ({ s with temperature := Math.min 100 (s.temperature + 2) }, true)
      else (s, false) := by
  unfold actionSwitch
  rw [if_neg (by decide), if_neg (by decide), if_pos rfl]

theorem actionSwitch_cool (s : State) :
    actionSwitch s (JsValue.str "COOL") =
      if s.temperature > 0 then
        ({ s with temperature := Math.max 0 (s.temperature - 2) }, true)
      else (s, false) := by
  unfold actionSwitch
  rw [if_neg (by decide), if_neg (by decide), if_neg (by decide), if_pos rfl]

theorem actionSwitch_unknown (s : State) (p : JsValue)
    (hF : p ≠ JsValue.str "FILL") (hD : p ≠ JsValue.str "DRAIN")
    (hH : p ≠ JsValue.str "HEAT") (hC : p ≠ JsValue.str "COOL") :
    actionSwitch s p = (s, false) := by
  unfold actionSwitch
  rw [if_neg hF, if_neg hD, if_neg hH, if_neg hC]

theorem localSwitch_unknown (s : State) (p : JsValue)
    (hF : p ≠ JsValue.str "FILL") (hD : p ≠ JsValue.str "DRAIN")
    (hH : p ≠ JsValue.str "HEAT") (hC : p ≠ JsValue.str "COOL") :
    localSwitch s p = s := by
  unfold localSwitch
  rw [if_neg hF, if_neg hD, if_neg hH, if_neg hC]

theorem actionSwitch_changed (s : State) (p : JsValue) :
    (actionSwitch s p).2 = true ↔ (actionSwitch s p).1 ≠ s := by
  obtain ⟨w, t⟩ := s
  simp only [actionSwitch, Math.min, Math.max]
  split_ifs <;> simp <;> omega

theorem actionHandler_emits (srv : Server) (p : JsValue) :
    (actionHandler srv p).2 =
      if (actionSwitch srv.globalState p).2 = true then
        [Emit.ioEmit srv.connectedIds (Msg.update (actionSwitch srv.globalState p).1)]
      else [] := by
  simp only [actionHandler]
  split_ifs <;> rfl

theorem actionHandler_of_unchanged (srv : Server) (p : JsValue)
    (h : actionSwitch srv.globalState p = (srv.globalState, false)) :
    actionHandler srv p = (srv, []) := by
  simp only [actionHandler, h]
  rfl

theorem trajectories_agree (ps : List JsValue) :
    ∀ srv : Server, InBounds srv.globalState →
      serverTrajectory srv ps = localTrajectory srv.globalState ps := by
  induction ps with
  | nil => intro srv _; rfl
  | cons p ps ih =>
    intro srv h
    have hstep : (actionHandler srv p).1.globalState =
        (handleAction (offlineClient srv.globalState) p).1.localState := by
      rw [actionHandler_globalState, handleAction_offline]
      exact actionSwitch_eq_localSwitch _ _ h
    have hb : InBounds (actionHandler srv p).1.globalState := by
      rw [actionHandler_globalState]; exact actionSwitch_inBounds _ _ h
    simp only [serverTrajectory, localTrajectory]
    rw [ih _ hb, hstep]

/-! ## Claims on the action rule -/

/-- C1. Bounds invariant: from a state with both fields in [0,100], the
server's action handler and the client's offline `handleAction` both give a
state with both fields in [0,100], whatever the payload; hence every state of
the server's and of the local simulation's trajectory from the initial state
`{0,0}` is in [0,100], for every sequence of payloads. -/
theorem bounds_invariant :
    (∀ (srv : Server) (p : JsValue), InBounds srv.globalState →
        InBounds (actionHandler srv p).1.globalState) ∧
    (∀ (s : State) (p : JsValue), InBounds s →
        InBounds (handleAction (offlineClient s) p).1.localState) ∧
    (∀ (ps : List JsValue), ∀ s ∈ serverTrajectory initialServer ps, InBounds s) ∧
    (∀ (ps : List JsValue), ∀ s ∈ localTrajectory initialState ps, InBounds s) := by
  refine ⟨?_, ?_, ?_, ?_⟩
  · intro srv p h
    rw [actionHandler_globalState]; exact actionSwitch_inBounds _ _ h
  · intro s p h
    rw [handleAction_offline]; exact localSwitch_inBounds _ _ h
  · intro ps
    exact serverTrajectory_inBounds ps initialServer (by decide)
  · intro ps
    exact localTrajectory_inBounds ps initialState (by decide)

/-- C1, at the state `{99, 1}`: `FILL` on the server and `COOL` in local
simulation stay in bounds, and so does the trajectory of three `DRAIN`s. -/
theorem bounds_invariant_witness :
    InBounds (serverWith ⟨99, 1⟩).globalState ∧
    InBounds (actionHandler (serverWith ⟨99, 1⟩) (JsValue.str "FILL")).1.globalState ∧
    InBounds (handleAction (offlineClient ⟨99, 1⟩) (JsValue.str "COOL")).1.localState ∧
    (∀ s ∈ serverTrajectory initialServer
        [JsValue.str "DRAIN", JsValue.str "DRAIN", JsValue.str "DRAIN"], InBounds s) :=
  ⟨by decide, bounds_invariant.1 (serverWith ⟨99, 1⟩) (JsValue.str "FILL") (by decide),
    bounds_invariant.2.1 ⟨99, 1⟩ (JsValue.str "COOL") (by decide),
    bounds_invariant.2.2.1 _⟩

/-- C3. Broadcast iff changed: whatever the server state and the payload, the
emit calls of the action handler are exactly one `update` broadcast carrying
the state after the handler when that state differs from the state before,
and none otherwise; the handler emits an `update` if and only if the state
changed; and an action on a field that is already at its boundary leaves the
server as it is and emits nothing. -/
theorem broadcast_iff_changed (srv : Server) (p : JsValue) :
    ((actionHandler srv p).2 =
      if (actionHandler srv p).1.globalState ≠ srv.globalState then
        [Emit.ioEmit srv.connectedIds (Msg.update (actionHandler srv p).1.globalState)]
      else []) ∧
    ((∃ e ∈ (actionHandler srv p).2, e.isUpdate = true) ↔
      (actionHandler srv p).1.globalState ≠ srv.globalState) ∧
    ((actionHandler srv p).2.length ≤ 1) ∧
    (srv.globalState.waterLevel = 100 →
      actionHandler srv (JsValue.str "FILL") = (srv, [])) ∧
    (srv.globalState.waterLevel = 0 →
      actionHandler srv (JsValue.str "DRAIN") = (srv, [])) ∧
    (srv.globalState.temperature = 100 →
      actionHandler srv (JsValue.str "HEAT") = (srv, [])) ∧
    (srv.globalState.temperature = 0 →
      actionHandler srv (JsValue.str "COOL") = (srv, [])) := by
  have hout := actionHandler_emits srv p
  have hst := actionHandler_globalState srv p
  have hch := actionSwitch_changed srv.globalState p
  refine ⟨?_, ?_, ?_, ?_, ?_, ?_, ?_⟩
  · rw [hout, hst]
    by_cases hc : (actionSwitch srv.globalState p).2 = true
    · rw [if_pos hc, if_pos (hch.mp hc)]
    · rw [if_neg hc, if_neg (fun hne => hc (hch.mpr hne))]
  · rw [hout, hst]
    by_cases hc : (actionSwitch srv.globalState p).2 = true
    · rw [if_pos hc]
      constructor
      · intro _; exact hch.mp hc
      · intro _; exact ⟨_, List.mem_singleton.mpr rfl, rfl⟩
    · rw [if_neg hc]
      constructor
      · rintro ⟨e, he, _⟩; simp at he
      · intro hne; exact absurd (hch.mpr hne) hc
  · rw [hout]
    split_ifs <;> simp
  · intro h
    apply actionHandler_of_unchanged
    rw [actionSwitch_fill, if_neg (by omega)]
  · intro h
    apply actionHandler_of_unchanged
    rw [actionSwitch_drain, if_neg (by omega)]
  · intro h
    apply actionHandler_of_unchanged
    rw [actionSwitch_heat, if_neg (by omega)]
  · intro h
    apply actionHandler_of_unchanged
    rw [actionSwitch_cool, if_neg (by omega)]

/-- C3, at the state `{100, 0}`: the saturated `FILL` and `COOL` return the
server unchanged with no emit call. -/
theorem broadcast_iff_changed_witness :
    (serverWith ⟨100, 0⟩).globalState.waterLevel = 100 ∧
    actionHandler (serverWith ⟨100, 0⟩) (JsValue.str "FILL") = (serverWith ⟨100, 0⟩, []) ∧
    actionHandler (serverWith ⟨100, 0⟩) (JsValue.str "COOL") = (serverWith ⟨100, 0⟩, []) :=
  ⟨rfl, (broadcast_iff_changed (serverWith ⟨100, 0⟩) JsValue.null).2.2.2.1 rfl,
    (broadcast_iff_changed (serverWith ⟨100, 0⟩) JsValue.null).2.2.2.2.2.2 rfl⟩

/-- C4. Server and local simulation agree: from a state with both fields in
[0,100], the states after each step of the server's action handler and of the
client's offline `handleAction` over the same sequence of payloads are the
same list. -/
theorem server_local_consistency (srv : Server) (ps : List JsValue)
    (h : InBounds srv.globalState) :
    serverTrajectory srv ps = localTrajectory srv.globalState ps :=
  trajectories_agree ps srv h

/-- C4, from `{98, 2}` with `FILL, FILL, COOL, COOL, bogus`: both sides give
the same five states. -/
theorem server_local_consistency_witness :
    InBounds (serverWith ⟨98, 2⟩).globalState ∧
    serverTrajectory (serverWith ⟨98, 2⟩)
        [JsValue.str "FILL", JsValue.str "FILL", JsValue.str "COOL", JsValue.str "COOL",
          JsValue.num 7] =
      localTrajectory (serverWith ⟨98, 2⟩).globalState
        [JsValue.str "FILL", JsValue.str "FILL", JsValue.str "COOL", JsValue.str "COOL",
          JsValue.num 7] ∧
    localTrajectory ⟨98, 2⟩
        [JsValue.str "FILL", JsValue.str "FILL", JsValue.str "COOL", JsValue.str "COOL",
          JsValue.num 7] =
      [⟨100, 2⟩, ⟨100, 2⟩, ⟨100, 0⟩, ⟨100, 0⟩, ⟨100, 0⟩] :=
  ⟨by decide, server_local_consistency (serverWith ⟨98, 2⟩) _ (by decide), by decide⟩

/-- C8. Unknown actions are no-ops: for a payload that is none of the strings
`FILL`, `DRAIN`, `HEAT`, `COOL`, the server's action handler returns the
server unchanged with no emit call, and the client's offline `handleAction`
returns the client unchanged. -/
theorem unknown_action_noop (srv : Server) (s : State) (p : JsValue)
    (hF : p ≠ JsValue.str "FILL") (hD : p ≠ JsValue.str "DRAIN")
    (hH : p ≠ JsValue.str "HEAT") (hC : p ≠ JsValue.str "COOL") :
    actionHandler srv p = (srv, []) ∧
    handleAction (offlineClient s) p = (offlineClient s, []) := by
  constructor
  · exact actionHandler_of_unchanged srv p (actionSwitch_unknown srv.globalState p hF hD hH hC)
  · simp only [handleAction, offlineClient, localSwitch_unknown s p hF hD hH hC]
    rfl

/-- C8, for the lower-case string `fill` in the state `{50, 50}`. -/
theorem unknown_action_noop_witness :
    actionHandler (serverWith ⟨50, 50⟩) (JsValue.str "fill") = (serverWith ⟨50, 50⟩, []) ∧
    handleAction (offlineClient ⟨50, 50⟩) (JsValue.str "fill") = (offlineClient ⟨50, 50⟩, []) :=
  unknown_action_noop (serverWith ⟨50, 50⟩) ⟨50, 50⟩ (JsValue.str "fill")
    (by decide) (by decide) (by decide) (by decide)

/-- C9. Boundary scenario: on a server whose state is `{98, 50}`, `FILL` gives
`{100, 50}` and one `update` broadcast of it; a second `FILL` leaves the
server as it is and emits nothing; a following `DRAIN` gives `{98, 50}` and
one `update` broadcast of it. -/
theorem boundary_scenario (srv : Server) (h : srv.globalState = ⟨98, 50⟩) :
    ∃ s1 s3 : Server,
      actionHandler srv (JsValue.str "FILL") =
        (s1, [Emit.ioEmit srv.connectedIds (Msg.update ⟨100, 50⟩)]) ∧
      s1.globalState = ⟨100, 50⟩ ∧
      actionHandler s1 (JsValue.str "FILL") = (s1, []) ∧
      actionHandler s1 (JsValue.str "DRAIN") =
        (s3, [Emit.ioEmit srv.connectedIds (Msg.update ⟨98, 50⟩)]) ∧
      s3.globalState = ⟨98, 50⟩ := by
  obtain ⟨g, u, ss, n⟩ := srv
  simp only [] at h
  subst h
  refine ⟨⟨⟨100, 50⟩, u, ss, n⟩, ⟨⟨98, 50⟩, u, ss, n⟩, ?_, rfl, ?_, ?_, rfl⟩ <;>
    simp [actionHandler, actionSwitch_fill, actionSwitch_drain, Math.min, Math.max,
      Server.connectedIds]

/-- C9, on the server that holds `{98, 50}` with nobody connected. -/
theorem boundary_scenario_witness :
    (serverWith ⟨98, 50⟩).globalState = ⟨98, 50⟩ ∧
    ∃ s1 s3 : Server,
      actionHandler (serverWith ⟨98, 50⟩) (JsValue.str "FILL") =
        (s1, [Emit.ioEmit (serverWith ⟨98, 50⟩).connectedIds (Msg.update ⟨100, 50⟩)]) ∧
      s1.globalState = ⟨100, 50⟩ ∧
      actionHandler s1 (JsValue.str "FILL") = (s1, []) ∧
      actionHandler s1 (JsValue.str "DRAIN") =
        (s3, [Emit.ioEmit (serverWith ⟨98, 50⟩).connectedIds (Msg.update ⟨98, 50⟩)]) ∧
      s3.globalState = ⟨98, 50⟩ :=
  ⟨rfl, boundary_scenario (serverWith ⟨98, 50⟩) rfl⟩

/-! ## Lemmas on the presence set -/

theorem JsSet.add_of_mem (P : JsSet) (x : String) (h : x ∈ P.items) : P.add x = P := by
  unfold JsSet.add
  rw [dif_pos h]

theorem JsSet.items_add_of_not_mem (P : JsSet) (x : String) (h : x ∉ P.items) :
    (P.add x).items = P.items ++ [x] := by
  unfold JsSet.add
  rw [dif_neg h]

theorem JsSet.mem_add (P : JsSet) (x y : String) :
    y ∈ (P.add x).items ↔ y ∈ P.items ∨ y = x := by
  by_cases h : x ∈ P.items
  · rw [JsSet.add_of_mem P x h]
    constructor
    · intro hy; exact Or.inl hy
    · rintro (hy | rfl)
      · exact hy
      · exact h
  · rw [JsSet.items_add_of_not_mem P x h, List.mem_append, List.mem_singleton]

theorem JsSet.mem_delete (P : JsSet) (x y : String) :
    y ∈ (P.delete x).items ↔ y ∈ P.items ∧ y ≠ x := by
  unfold JsSet.delete
  rw [List.Nodup.mem_erase_iff P.nodup]
  exact And.comm

theorem JsSet.count_items (P : JsSet) (x : String) :
    P.items.count x = if x ∈ P.items then 1 else 0 := by
  by_cases h : x ∈ P.items
  · rw [if_pos h]; exact List.count_eq_one_of_mem P.nodup h
  · rw [if_neg h]; exact List.count_eq_zero_of_not_mem h

theorem JsSet.size_eq_card (P : JsSet) : P.size = P.items.toFinset.card := by
  unfold JsSet.size
  exact (List.toFinset_card_of_nodup P.nodup).symm

/-! ## Claims on presence -/

/-- C6. Presence is counted by distinct identity: the connection handler
replaces the presence set `P` by `P.add X` for the connection's identity `X`;
adding an identity that is present changes nothing, adding a new one puts it
last and raises the size by one; and every user list carried by an emit call
of the connection or the disconnect handler is the presence set after that
handler, so it has no duplicates, holds each registered identity exactly once,
and its length is the number of distinct registered identities. -/
theorem presence_by_identity :
    (∀ (srv : Server) (h : Handshake),
      (connectionHandler srv h).1.connectedUsers = srv.connectedUsers.add (maskedIpOf h)) ∧
    (∀ (P : JsSet) (X : String), X ∈ P.items → P.add X = P ∧ (P.add X).size = P.size) ∧
    (∀ (P : JsSet) (X : String), X ∉ P.items →
      (P.add X).items = P.items ++ [X] ∧ (P.add X).size = P.size + 1) ∧
    (∀ (srv : Server) (h : Handshake), ∀ e ∈ (connectionHandler srv h).2,
      ∀ l, e.msg.userList? = some l →
        l = (connectionHandler srv h).1.connectedUsers.toArray) ∧
    (∀ (srv : Server) (socket : Socket), ∀ e ∈ (disconnectHandler srv socket).2,
      ∀ l, e.msg.userList? = some l →
        l = (disconnectHandler srv socket).1.connectedUsers.toArray) ∧
    (∀ (P : JsSet), P.toArray.Nodup ∧
      (∀ x, P.toArray.count x = if x ∈ P.items then 1 else 0) ∧
      P.toArray.length = P.size ∧ P.size = P.items.toFinset.card) := by
  refine ⟨?_, ?_, ?_, ?_, ?_, ?_⟩
  · intro srv h; rfl
  · intro P X hX
    rw [JsSet.add_of_mem P X hX]
    exact ⟨rfl, rfl⟩
  · intro P X hX
    refine ⟨JsSet.items_add_of_not_mem P X hX, ?_⟩
    unfold JsSet.size
    rw [JsSet.items_add_of_not_mem P X hX, List.length_append, List.length_singleton]
  · intro srv h e he l hl
    simp only [connectionHandler, List.mem_cons, List.mem_singleton, List.not_mem_nil,
      or_false] at he
    rcases he with rfl | rfl <;>
      · simp only [Emit.msg, Msg.userList?, Option.some.injEq] at hl
        rw [← hl]; rfl
  · intro srv socket e he l hl
    simp only [disconnectHandler, List.mem_singleton] at he
    subst he
    simp only [Emit.msg, Msg.userList?, Option.some.injEq] at hl
    rw [← hl]; rfl
  · intro P
    exact ⟨P.nodup, JsSet.count_items P, rfl, JsSet.size_eq_card P⟩

/-- C6, on two connections from the address `10.1.2.3`: the second one finds
its identity present, and the user list it is sent has length 1 while two
sockets are connected. -/
theorem presence_by_identity_witness :
    "10.***.2.***" ∈ (JsSet.empty.add "10.***.2.***").items ∧
    (JsSet.empty.add "10.***.2.***").add "10.***.2.***" = JsSet.empty.add "10.***.2.***" ∧
    ((JsSet.empty.add "10.***.2.***").add "10.***.2.***").size = 1 ∧
    (JsSet.empty.add "10.***.2.***").size = JsSet.empty.size + 1 ∧
    (run initialServer [Event.connection ⟨none, "10.1.2.3"⟩,
        Event.connection ⟨none, "10.1.2.3"⟩]).1.connectedUsers.toArray = ["10.***.2.***"] ∧
    (run initialServer [Event.connection ⟨none, "10.1.2.3"⟩,
        Event.connection ⟨none, "10.1.2.3"⟩]).1.sockets.length = 2 :=
  ⟨by decide,
    (presence_by_identity.2.1 (JsSet.empty.add "10.***.2.***") "10.***.2.***" (by decide)).1,
    by decide,
    (presence_by_identity.2.2.1 JsSet.empty "10.***.2.***" (by decide)).2,
    by decide, by decide⟩

/-- C7. Disconnect removes exactly the peer's identity: after the disconnect
handler of a socket with identity `X` the presence set holds exactly the
identities it held before other than `X`, in the same order; the handler's
emit calls are one `updateUserList` broadcast with that set, sent to the
sockets that remain connected; and a different socket that shares the identity
`X` stays connected although `X` has left the presence set. -/
theorem disconnect_removes_identity (srv : Server) (socket : Socket) :
    (∀ y, y ∈ (disconnectHandler srv socket).1.connectedUsers.items ↔
      y ∈ srv.connectedUsers.items ∧ y ≠ socket.maskedIp) ∧
    (disconnectHandler srv socket).1.connectedUsers.items =
      srv.connectedUsers.items.filter (fun y => y != socket.maskedIp) ∧
    (disconnectHandler srv socket).2 =
      [Emit.ioEmit ((srv.sockets.filter (fun s => s.id != socket.id)).map Socket.id)
        (Msg.updateUserList (disconnectHandler srv socket).1.connectedUsers.toArray)] ∧
    (disconnectHandler srv socket).1.globalState = srv.globalState ∧
    (∀ other ∈ srv.sockets, other.id ≠ socket.id → other.maskedIp = socket.maskedIp →
      other ∈ (disconnectHandler srv socket).1.sockets ∧
      socket.maskedIp ∉ (disconnectHandler srv socket).1.connectedUsers.items) := by
  refine ⟨?_, ?_, rfl, rfl, ?_⟩
  · intro y
    exact JsSet.mem_delete srv.connectedUsers socket.maskedIp y
  · show srv.connectedUsers.items.erase socket.maskedIp = _
    rw [List.Nodup.erase_eq_filter srv.connectedUsers.nodup]
  · intro other hmem hid _
    constructor
    · show other ∈ srv.sockets.filter (fun s => s.id != socket.id)
      rw [List.mem_filter]
      exact ⟨hmem, by simpa using hid⟩
    · intro hx
      exact ((JsSet.mem_delete srv.connectedUsers socket.maskedIp socket.maskedIp).mp hx).2 rfl

/-! ## Lemmas on delivery -/

theorem delivered_append (c : Nat) (l1 l2 : List Emit) :
    delivered c (l1 ++ l2) = delivered c l1 ++ delivered c l2 := by
  simp [delivered]

theorem delivered_noInit (c : Nat) (out : List Emit)
    (h : ∀ e ∈ out, e.msg.isInit = false) :
    ∀ m ∈ delivered c out, m.isInit = false := by
  intro m hm
  simp only [delivered, List.mem_map, List.mem_filter] at hm
  obtain ⟨e, ⟨he, _⟩, rfl⟩ := hm
  exact h e he

theorem delivered_nil (c : Nat) (out : List Emit)
    (h : ∀ e ∈ out, e.reaches c = false) : delivered c out = [] := by
  simp only [delivered, List.map_eq_nil_iff, List.filter_eq_nil_iff]
  intro e he
  rw [h e he]
  decide

theorem not_reaches_of_below (srv : Server) (hB : srv.SocketsBelow) (c : Nat)
    (hc : srv.nextId ≤ c) (ids : List Nat) (hsub : ∀ i ∈ ids, i ∈ srv.connectedIds)
    (m : Msg) : (Emit.ioEmit ids m).reaches c = false := by
  simp only [Emit.reaches, decide_eq_false_iff_not]
  intro hmem
  have h1 := hsub c hmem
  simp only [Server.connectedIds, List.mem_map] at h1
  obtain ⟨s, hs, rfl⟩ := h1
  have := hB s hs
  omega

/-- What a turn of the event loop other than a connection does: no socket is
created, none is added, and every emit call is a broadcast, not an `init`, to
sockets that were connected before the turn. -/
theorem step_other (srv : Server) (e : Event) (hne : ∀ h, e ≠ Event.connection h) :
    (step srv e).1.nextId = srv.nextId ∧
    (∀ s ∈ (step srv e).1.sockets, s ∈ srv.sockets) ∧
    (∀ em ∈ (step srv e).2, ∃ ids m, em = Emit.ioEmit ids m ∧
      (∀ i ∈ ids, i ∈ srv.connectedIds) ∧ m.isInit = false) := by
  cases e with
  | connection h => exact absurd rfl (hne h)
  | action id payload =>
    simp only [step]
    cases srv.socket? id with
    | none => simp
    | some sock =>
      simp only [actionHandler]
      split_ifs
      · refine ⟨rfl, fun s hs => hs, ?_⟩
        intro em hem
        rw [List.mem_singleton] at hem
        exact ⟨_, _, hem, fun i hi => hi, rfl⟩
      · refine ⟨rfl, fun s hs => hs, ?_⟩
        intro em hem
        simp at hem
  | disconnect id =>
    simp only [step]
    cases srv.socket? id with
    | none => simp
    | some sock =>
      simp only [disconnectHandler]
      refine ⟨trivial, fun s hs => (List.mem_filter.mp hs).1, ?_⟩
      intro em hem
      rw [List.mem_singleton] at hem
      refine ⟨_, _, hem, ?_, rfl⟩
      intro i hi
      simp only [Server.connectedIds, List.mem_map, List.mem_filter] at hi ⊢
      obtain ⟨s, ⟨hs, _⟩, rfl⟩ := hi
      exact ⟨s, hs, rfl⟩

theorem step_socketsBelow (srv : Server) (e : Event) (hB : srv.SocketsBelow) :
    (step srv e).1.SocketsBelow := by
  cases e with
  | connection h =>
    intro s hs
    simp only [step, connectionHandler, List.mem_append, List.mem_singleton] at hs ⊢
    rcases hs with hs | rfl
    · have := hB s hs; omega
    · simp
  | action id payload =>
    obtain ⟨hn, hs, _⟩ := step_other srv (Event.action id payload) (by intro h; simp)
    intro s hmem
    rw [hn]; exact hB s (hs s hmem)
  | disconnect id =>
    obtain ⟨hn, hs, _⟩ := step_other srv (Event.disconnect id) (by intro h; simp)
    intro s hmem
    rw [hn]; exact hB s (hs s hmem)

/-- What is delivered by the turn that handles a connection: the new socket
gets the `init` and then the user list, an older socket gets no `init`, and a
socket not created yet gets nothing. -/
theorem step_connection_delivered (srv : Server) (hB : srv.SocketsBelow) (h : Handshake)
    (c : Nat) :
    (c = srv.nextId →
      delivered c (step srv (Event.connection h)).2 =
        [Msg.init srv.globalState (maskedIpOf h) (srv.connectedUsers.add (maskedIpOf h)).toArray,
         Msg.updateUserList (srv.connectedUsers.add (maskedIpOf h)).toArray]) ∧
    (c < srv.nextId →
      ∀ m ∈ delivered c (step srv (Event.connection h)).2, m.isInit = false) ∧
    (srv.nextId < c → delivered c (step srv (Event.connection h)).2 = []) := by
  refine ⟨?_, ?_, ?_⟩
  · rintro rfl
    simp [step, connectionHandler, delivered, Emit.reaches, Emit.msg, Server.connectedIds]
  · intro hc m hm
    have hne : ¬ srv.nextId = c := by omega
    simp only [step, connectionHandler, delivered, List.filter_cons, Emit.reaches,
      beq_iff_eq, hne, if_false] at hm
    split_ifs at hm
    · simp only [List.filter_nil, List.map_cons, List.map_nil, Emit.msg,
        List.mem_singleton] at hm
      rw [hm]; rfl
    · simp at hm
  · intro hc
    apply delivered_nil
    intro e he
    simp only [step, connectionHandler, List.mem_cons, List.mem_singleton,
      List.not_mem_nil, or_false] at he
    rcases he with rfl | rfl
    · simp only [Emit.reaches, beq_eq_false_iff_ne, ne_eq]
      omega
    · simp only [Emit.reaches, decide_eq_false_iff_not,
        Server.connectedIds, List.map_append, List.map_cons, List.map_nil, List.mem_append,
        List.mem_map, List.mem_singleton, not_or]
      constructor
      · rintro ⟨s, hs, rfl⟩
        have := hB s hs
        omega
      · omega

theorem step_other_delivered (srv : Server) (hB : srv.SocketsBelow) (e : Event)
    (hne : ∀ h, e ≠ Event.connection h) (c : Nat) :
    (∀ m ∈ delivered c (step srv e).2, m.isInit = false) ∧
    (srv.nextId ≤ c → delivered c (step srv e).2 = []) := by
  obtain ⟨_, _, hout⟩ := step_other srv e hne
  constructor
  · apply delivered_noInit
    intro em hem
    obtain ⟨ids, m, rfl, _, hm⟩ := hout em hem
    exact hm
  · intro hc
    apply delivered_nil
    intro em hem
    obtain ⟨ids, m, rfl, hsub, _⟩ := hout em hem
    exact not_reaches_of_below srv hB c hc ids hsub m

/-- The deliveries of a whole run, by socket: a socket that existed before the
run gets no `init`; a socket created during the run gets its `init` first and
no other; a socket not created gets nothing. -/
theorem run_delivered (evs : List Event) :
    ∀ srv : Server, srv.SocketsBelow →
      (∀ c, c < srv.nextId → ∀ m ∈ delivered c (run srv evs).2, m.isInit = false) ∧
      (∀ c, srv.nextId ≤ c → c < srv.nextId + connectionCount evs →
        InitFirst (delivered c (run srv evs).2)) ∧
      (∀ c, srv.nextId + connectionCount evs ≤ c → delivered c (run srv evs).2 = []) := by
  induction evs with
  | nil =>
    intro srv _
    refine ⟨?_, ?_, ?_⟩
    · intro c _ m hm
      simp [run, delivered] at hm
    · intro c hc1 hc2
      simp only [connectionCount] at hc2
      omega
    · intro c _
      rfl
  | cons e es ih =>
    intro srv hB
    obtain ⟨ih1, ih2, ih3⟩ := ih (step srv e).1 (step_socketsBelow srv e hB)
    cases e with
    | connection h =>
      have hn : (step srv (Event.connection h)).1.nextId = srv.nextId + 1 := rfl
      have hrun : (run srv (Event.connection h :: es)).2 =
          (step srv (Event.connection h)).2 ++ (run (step srv (Event.connection h)).1 es).2 :=
        rfl
      have hcount : connectionCount (Event.connection h :: es) = connectionCount es + 1 := rfl
      rw [hn] at ih1 ih2 ih3
      refine ⟨?_, ?_, ?_⟩
      · intro c hc m hm
        rw [hrun, delivered_append, List.mem_append] at hm
        rcases hm with hm | hm
        · exact (step_connection_delivered srv hB h c).2.1 hc m hm
        · exact ih1 c (by omega) m hm
      · intro c hc1 hc2
        rw [hcount] at hc2
        rw [hrun, delivered_append]
        by_cases hceq : c = srv.nextId
        · rw [(step_connection_delivered srv hB h c).1 hceq]
          refine ⟨_, _, _, _, rfl, ?_⟩
          intro m hm
          have hm' : m ∈ Msg.updateUserList (srv.connectedUsers.add (maskedIpOf h)).toArray ::
              delivered c (run (step srv (Event.connection h)).1 es).2 := hm
          rw [List.mem_cons] at hm'
          rcases hm' with rfl | hm'
          · rfl
          · exact ih1 c (by omega) m hm'
        · rw [(step_connection_delivered srv hB h c).2.2 (by omega), List.nil_append]
          exact ih2 c (by omega) (by omega)
      · intro c hc
        rw [hcount] at hc
        rw [hrun, delivered_append,
          (step_connection_delivered srv hB h c).2.2 (by omega), List.nil_append]
        exact ih3 c (by omega)
    | action id payload =>
    obtain ⟨hn, -, -⟩ := step_other srv (Event.action id payload) (by intro h; simp)
    have hd := step_other_delivered srv hB (Event.action id payload) (by intro h; simp)
    have hrun : (run srv (Event.action id payload :: es)).2 =
        (step srv (Event.action id payload)).2 ++ (run (step srv (Event.action id payload)).1 es).2 := rfl
    have hcount : connectionCount (Event.action id payload :: es) = connectionCount es := rfl
    rw [hn] at ih1 ih2 ih3
    refine ⟨?_, ?_, ?_⟩
    · intro c hc m hm
      rw [hrun, delivered_append, List.mem_append] at hm
      rcases hm with hm | hm
      · exact (hd c).1 m hm
      · exact ih1 c hc m hm
    · intro c hc1 hc2
      rw [hrun, delivered_append, (hd c).2 hc1, List.nil_append]
      rw [hcount] at hc2
      exact ih2 c hc1 hc2
    · intro c hc
      rw [hcount] at hc
      rw [hrun, delivered_append, (hd c).2 (by omega), List.nil_append]
      exact ih3 c hc
    | disconnect id =>
    obtain ⟨hn, -, -⟩ := step_other srv (Event.disconnect id) (by intro h; simp)
    have hd := step_other_delivered srv hB (Event.disconnect id) (by intro h; simp)
    have hrun : (run srv (Event.disconnect id :: es)).2 =
        (step srv (Event.disconnect id)).2 ++ (run (step srv (Event.disconnect id)).1 es).2 := rfl
    have hcount : connectionCount (Event.disconnect id :: es) = connectionCount es := rfl
    rw [hn] at ih1 ih2 ih3
    refine ⟨?_, ?_, ?_⟩
    · intro c hc m hm
      rw [hrun, delivered_append, List.mem_append] at hm
      rcases hm with hm | hm
      · exact (hd c).1 m hm
      · exact ih1 c hc m hm
    · intro c hc1 hc2
      rw [hrun, delivered_append, (hd c).2 hc1, List.nil_append]
      rw [hcount] at hc2
      exact ih2 c hc1 hc2
    · intro c hc
      rw [hcount] at hc
      rw [hrun, delivered_append, (hd c).2 (by omega), List.nil_append]
      exact ih3 c hc

theorem initialServer_socketsBelow : initialServer.SocketsBelow := by
  intro s hs
  simp [initialServer] at hs

theorem countP_isInit_of_initFirst (msgs : List Msg) (h : InitFirst msgs) :
    msgs.countP Msg.isInit = 1 := by
  obtain ⟨st, ip, ul, rest, rfl, hrest⟩ := h
  have h0 : rest.countP Msg.isInit = 0 := by
    rw [List.countP_eq_zero]
    intro m hm
    rw [hrest m hm]
    decide
  rw [List.countP_cons_of_pos _ _ (by rfl), h0]

/-! ## Claims on the connection lifecycle -/

/-- C5. Handshake ordering: in the run of the server over any list of events
from its initial state, every connection (the sockets `0` up to the number of
connection events) is delivered an `init` as its first message and no other
`init`, so exactly one, before every `update` and `updateUserList` it gets;
and a socket that never connected is delivered nothing. -/
theorem handshake_ordering (evs : List Event) (c : Nat) :
    (c < connectionCount evs →
      InitFirst (delivered c (run initialServer evs).2) ∧
      (delivered c (run initialServer evs).2).countP Msg.isInit = 1) ∧
    (connectionCount evs ≤ c → delivered c (run initialServer evs).2 = []) := by
  obtain ⟨_, h2, h3⟩ := run_delivered evs initialServer initialServer_socketsBelow
  constructor
  · intro hc
    have hfirst := h2 c (Nat.zero_le c) (by simpa [initialServer] using hc)
    exact ⟨hfirst, countP_isInit_of_initFirst _ hfirst⟩
  · intro hc
    exact h3 c (by simpa [initialServer] using hc)

/-- C5, on a run with two connections, for the second one (socket 1): it is
delivered its `init`, then its user list, the `update` of its `HEAT` and the
user list after the first socket left. -/
theorem handshake_ordering_witness :
    1 < connectionCount
      [Event.connection ⟨none, "10.1.2.3"⟩, Event.action 0 (JsValue.str "FILL"),
        Event.connection ⟨some "10.9.2.8, 172.16.0.1", "::ffff:127.0.0.1"⟩,
        Event.action 1 (JsValue.str "HEAT"), Event.disconnect 0,
        Event.action 0 (JsValue.str "FILL")] ∧
    (InitFirst (delivered 1 (run initialServer
      [Event.connection ⟨none, "10.1.2.3"⟩, Event.action 0 (JsValue.str "FILL"),
        Event.connection ⟨some "10.9.2.8, 172.16.0.1", "::ffff:127.0.0.1"⟩,
        Event.action 1 (JsValue.str "HEAT"), Event.disconnect 0,
        Event.action 0 (JsValue.str "FILL")]).2) ∧
      (delivered 1 (run initialServer
      [Event.connection ⟨none, "10.1.2.3"⟩, Event.action 0 (JsValue.str "FILL"),
        Event.connection ⟨some "10.9.2.8, 172.16.0.1", "::ffff:127.0.0.1"⟩,
        Event.action 1 (JsValue.str "HEAT"), Event.disconnect 0,
        Event.action 0 (JsValue.str "FILL")]).2).countP Msg.isInit = 1) ∧
    delivered 1 (run initialServer
      [Event.connection ⟨none, "10.1.2.3"⟩, Event.action 0 (JsValue.str "FILL"),
        Event.connection ⟨some "10.9.2.8, 172.16.0.1", "::ffff:127.0.0.1"⟩,
        Event.action 1 (JsValue.str "HEAT"), Event.disconnect 0,
        Event.action 0 (JsValue.str "FILL")]).2 =
      [Msg.init ⟨2, 0⟩ "10.***.2.***" ["10.***.2.***"],
        Msg.updateUserList ["10.***.2.***"], Msg.update ⟨2, 2⟩, Msg.updateUserList []] :=
  ⟨by decide, (handshake_ordering _ 1).1 (by decide), by decide⟩

/-- C7, on two connections from the address `10.1.2.3` (sockets 0 and 1, the
same identity): after socket 0 disconnects, the identity has left the presence
set, socket 1 is still connected and is sent the empty user list. -/
theorem disconnect_removes_identity_witness :
    (⟨1, "10.***.2.***"⟩ : Socket) ∈ (run initialServer [Event.connection ⟨none, "10.1.2.3"⟩,
        Event.connection ⟨none, "10.1.2.3"⟩]).1.sockets ∧
    ((⟨1, "10.***.2.***"⟩ : Socket) ∈ (disconnectHandler (run initialServer
        [Event.connection ⟨none, "10.1.2.3"⟩, Event.connection ⟨none, "10.1.2.3"⟩]).1
        ⟨0, "10.***.2.***"⟩).1.sockets ∧
      "10.***.2.***" ∉ (disconnectHandler (run initialServer
        [Event.connection ⟨none, "10.1.2.3"⟩, Event.connection ⟨none, "10.1.2.3"⟩]).1
        ⟨0, "10.***.2.***"⟩).1.connectedUsers.items) ∧
    (run initialServer [Event.connection ⟨none, "10.1.2.3"⟩,
        Event.connection ⟨none, "10.1.2.3"⟩, Event.disconnect 0]).1.sockets =
      [⟨1, "10.***.2.***"⟩] ∧
    (run initialServer [Event.connection ⟨none, "10.1.2.3"⟩,
        Event.connection ⟨none, "10.1.2.3"⟩, Event.disconnect 0]).1.connectedUsers.items = [] ∧
    (step (run initialServer [Event.connection ⟨none, "10.1.2.3"⟩,
        Event.connection ⟨none, "10.1.2.3"⟩]).1 (Event.disconnect 0)).2 =
      [Emit.ioEmit [1] (Msg.updateUserList [])] :=
  ⟨by decide,
    (disconnect_removes_identity (run initialServer [Event.connection ⟨none, "10.1.2.3"⟩,
        Event.connection ⟨none, "10.1.2.3"⟩]).1 ⟨0, "10.***.2.***"⟩).2.2.2.2
      ⟨1, "10.***.2.***"⟩ (by decide) (by decide) (by decide),
    by decide, by decide, by decide⟩

/-- C10. Connect step content: the turn that handles a connection runs the
connection handler for the fresh socket; the presence set becomes `P.add X`
for the derived identity `X`; the emit calls are, in this order, one `init` on
the new socket carrying the shared state, `X` and the list of `P.add X`, and
one `updateUserList` broadcast carrying the same list; that list holds exactly
the identities of `P` and `X`; the `init` reaches the new socket only, the
broadcast reaches every connected socket, the new one included; and the shared
state is not modified. -/
theorem connect_step_content (srv : Server) (h : Handshake) :
    step srv (Event.connection h) = connectionHandler srv h ∧
    (connectionHandler srv h).1.connectedUsers = srv.connectedUsers.add (maskedIpOf h) ∧
    (connectionHandler srv h).1.sockets = srv.sockets ++ [⟨srv.nextId, maskedIpOf h⟩] ∧
    (connectionHandler srv h).2 =
      [Emit.socketEmit srv.nextId
          (Msg.init srv.globalState (maskedIpOf h)
            (srv.connectedUsers.add (maskedIpOf h)).toArray),
       Emit.ioEmit (srv.connectedIds ++ [srv.nextId])
          (Msg.updateUserList (srv.connectedUsers.add (maskedIpOf h)).toArray)] ∧
    (∀ x, x ∈ (srv.connectedUsers.add (maskedIpOf h)).toArray ↔
      x ∈ srv.connectedUsers.toArray ∨ x = maskedIpOf h) ∧
    maskedIpOf h ∈ (srv.connectedUsers.add (maskedIpOf h)).toArray ∧
    (∀ e ∈ (connectionHandler srv h).2, e.msg.isInit = true →
      ∀ c, e.reaches c = true ↔ c = srv.nextId) ∧
    (∀ e ∈ (connectionHandler srv h).2, e.msg.isInit = false →
      ∀ s ∈ (connectionHandler srv h).1.sockets, e.reaches s.id = true) ∧
    (connectionHandler srv h).1.globalState = srv.globalState := by
  refine ⟨rfl, rfl, rfl, ?_, ?_, ?_, ?_, ?_, rfl⟩
  · simp [connectionHandler, Server.connectedIds]
  · intro x
    exact JsSet.mem_add srv.connectedUsers (maskedIpOf h) x
  · exact (JsSet.mem_add srv.connectedUsers (maskedIpOf h) (maskedIpOf h)).mpr (Or.inr rfl)
  · intro e he hinit c
    simp only [connectionHandler, List.mem_cons, List.mem_singleton, List.not_mem_nil,
      or_false] at he
    rcases he with rfl | rfl
    · simp only [Emit.reaches, beq_iff_eq]
      exact eq_comm
    · simp [Emit.msg, Msg.isInit] at hinit
  · intro e he hinit s hs
    simp only [connectionHandler, List.mem_cons, List.mem_singleton, List.not_mem_nil,
      or_false] at he
    rcases he with rfl | rfl
    · simp [Emit.msg, Msg.isInit] at hinit
    · simp only [Emit.reaches, decide_eq_true_eq, Server.connectedIds, List.mem_map]
      exact ⟨s, hs, rfl⟩

/-- C10, for a connection from `192.168.1.20` to a server that already has one
peer `10.***.2.***`: the `init` goes to socket 1 with the state `{0, 0}` and
both identities, and the broadcast goes to sockets 0 and 1. -/
theorem connect_step_content_witness :
    (step (run initialServer [Event.connection ⟨none, "10.1.2.3"⟩]).1
        (Event.connection ⟨none, "::ffff:192.168.1.20"⟩)).2 =
      [Emit.socketEmit 1 (Msg.init ⟨0, 0⟩ "192.***.1.***" ["10.***.2.***", "192.***.1.***"]),
       Emit.ioEmit [0, 1] (Msg.updateUserList ["10.***.2.***", "192.***.1.***"])] ∧
    (connectionHandler (run initialServer [Event.connection ⟨none, "10.1.2.3"⟩]).1
        ⟨none, "::ffff:192.168.1.20"⟩).1.globalState = ⟨0, 0⟩ :=
  ⟨by
      rw [(connect_step_content (run initialServer [Event.connection ⟨none, "10.1.2.3"⟩]).1
        ⟨none, "::ffff:192.168.1.20"⟩).1]
      decide,
    (connect_step_content (run initialServer [Event.connection ⟨none, "10.1.2.3"⟩]).1
        ⟨none, "::ffff:192.168.1.20"⟩).2.2.2.2.2.2.2.2⟩

/-! ## Claims on the client -/

/-- C12. Replica mode never mutates locally: when `isOnline` is true,
`handleAction` returns the client as it was, `localState` included, and its
only effect is one `action` message carrying the action type it was given. -/
theorem replica_never_mutates (c : Client) (actionType : JsValue)
    (h : c.isOnline = true) :
    handleAction c actionType = (c, [ClientEmit.action actionType]) ∧
    (handleAction c actionType).1.localState = c.localState ∧
    (handleAction c actionType).2.length = 1 := by
  have e : handleAction c actionType = (c, [ClientEmit.action actionType]) := by
    unfold handleAction
    rw [if_pos h]
  rw [e]
  exact ⟨rfl, rfl, rfl⟩

/-- C12, for an online client holding `{98, 50}` and the action `FILL`. -/
theorem replica_never_mutates_witness :
    handleAction ⟨true, ⟨98, 50⟩⟩ (JsValue.str "FILL") =
      (⟨true, ⟨98, 50⟩⟩, [ClientEmit.action (JsValue.str "FILL")]) ∧
    (handleAction ⟨true, ⟨98, 50⟩⟩ (JsValue.str "FILL")).1.localState = ⟨98, 50⟩ ∧
    (handleAction ⟨true, ⟨98, 50⟩⟩ (JsValue.str "FILL")).2.length = 1 :=
  replica_never_mutates ⟨true, ⟨98, 50⟩⟩ (JsValue.str "FILL") rfl

/-- C13. Incoming state broadcasts: on an `update` carrying `N`, a client with
`isOnline` true ends with `localState` equal to `N`, whatever it held, and
stays online; a client with `isOnline` false is left as it was. -/
theorem update_honoured (c : Client) (N : State) :
    onMessage c (Msg.update N) = onUpdate c N ∧
    (c.isOnline = true → onUpdate c N = { isOnline := true, localState := N }) ∧
    (c.isOnline = false → onUpdate c N = c) := by
  refine ⟨rfl, ?_, ?_⟩
  · intro h
    unfold onUpdate
    rw [if_pos h, h]
  · intro h
    unfold onUpdate
    rw [if_neg (by rw [h]; decide)]

/-- C13, for the broadcast `{12, 34}` received by an online and by an offline
client that both hold `{98, 50}`. -/
theorem update_honoured_witness :
    onUpdate ⟨true, ⟨98, 50⟩⟩ ⟨12, 34⟩ = ⟨true, ⟨12, 34⟩⟩ ∧
    onUpdate ⟨false, ⟨98, 50⟩⟩ ⟨12, 34⟩ = ⟨false, ⟨98, 50⟩⟩ :=
  ⟨(update_honoured ⟨true, ⟨98, 50⟩⟩ ⟨12, 34⟩).2.1 rfl,
    (update_honoured ⟨false, ⟨98, 50⟩⟩ ⟨12, 34⟩).2.2 rfl⟩

/-- C14, as stated, fails: the switch to online mode run on two offline
clients that hold `{40, 60}` and `{0, 0}` leaves each of them its own
`localState`, so the value after the switch depends on the value before. -/
theorem replica_switch_counterexample :
    (modeToggleOnchange ⟨false, ⟨40, 60⟩⟩ true).1.localState = ⟨40, 60⟩ ∧
    (modeToggleOnchange ⟨false, ⟨0, 0⟩⟩ true).1.localState = ⟨0, 0⟩ ∧
    (modeToggleOnchange ⟨false, ⟨40, 60⟩⟩ true).1.localState ≠
      (modeToggleOnchange ⟨false, ⟨0, 0⟩⟩ true).1.localState := by
  decide

/-- C14, amended. The switch to online mode sets `isOnline` to true, calls
`socket.connect()` and leaves `localState` exactly as it was; the copy is
replaced when the next `init` arrives: after that `init` the local state is
the state it carries, the same for any two clients whatever they held before
the switch. -/
theorem replica_switch_amended (c : Client) :
    modeToggleOnchange c true =
      ({ isOnline := true, localState := c.localState }, [SocketCall.connect]) ∧
    (∀ data : InitData,
      onInit (modeToggleOnchange c true).1 data =
        { isOnline := true, localState := data.state }) ∧
    (∀ (c2 : Client) (data : InitData),
      onInit (modeToggleOnchange c true).1 data =
        onInit (modeToggleOnchange c2 true).1 data) := by
  refine ⟨rfl, fun _ => rfl, fun _ _ => rfl⟩

/-- C15. Handshake replaces the local copy wholesale: after the `init`
callback the local state is the state carried by the message, whatever
`localState` held and whatever the mode, and `isOnline` is unchanged. -/
theorem handshake_replaces (c : Client) (data : InitData) :
    onMessage c (Msg.init data.state data.userIp data.userList) = onInit c data ∧
    onInit c data = { isOnline := c.isOnline, localState := data.state } ∧
    (∀ s : State, (onInit { c with localState := s } data).localState = data.state) := by
  refine ⟨rfl, rfl, fun _ => rfl⟩

/-- C16. Switching to local simulation freezes the last known state: the
switch to offline mode sets `isOnline` to false, calls `socket.disconnect()`
and leaves `localState` as it was; a later `update` no longer changes it; each
later `handleAction` applies the clamped step of 2 to it, so the states after
a sequence of local actions are the local trajectory from the frozen state;
and when the client was online and had just mirrored the broadcast `N`, the
first local action after the switch starts from `N`. -/
theorem local_switch_freezes (c : Client) :
    modeToggleOnchange c false =
      ({ isOnline := false, localState := c.localState }, [SocketCall.disconnect]) ∧
    (∀ N : State, onUpdate (modeToggleOnchange c false).1 N = (modeToggleOnchange c false).1) ∧
    (∀ p : JsValue,
      handleAction (modeToggleOnchange c false).1 p =
        ({ isOnline := false, localState := localSwitch c.localState p }, [])) ∧
    ((handleAction (modeToggleOnchange c false).1 (JsValue.str "FILL")).1.localState =
        { c.localState with waterLevel := Math.min 100 (c.localState.waterLevel + 2) } ∧
      (handleAction (modeToggleOnchange c false).1 (JsValue.str "DRAIN")).1.localState =
        { c.localState with waterLevel := Math.max 0 (c.localState.waterLevel - 2) } ∧
      (handleAction (modeToggleOnchange c false).1 (JsValue.str "HEAT")).1.localState =
        { c.localState with temperature := Math.min 100 (c.localState.temperature + 2) } ∧
      (handleAction (modeToggleOnchange c false).1 (JsValue.str "COOL")).1.localState =
        { c.localState with temperature := Math.max 0 (c.localState.temperature - 2) }) ∧
    (∀ (N : State) (p : JsValue), c.isOnline = true →
      (handleAction (modeToggleOnchange (onUpdate c N) false).1 p).1.localState =
        localSwitch N p) := by
  refine ⟨rfl, fun _ => rfl, fun _ => rfl, ⟨rfl, rfl, rfl, rfl⟩, ?_⟩
  intro N p h
  have e : onUpdate c N = { isOnline := true, localState := N } := by
    unfold onUpdate
    rw [if_pos h, h]
  rw [e]
  rfl

/-- C16, for a client that is online with `{0, 0}`, mirrors the broadcast
`{98, 50}`, switches to offline mode and presses `FILL`: the local state is
`{100, 50}`. -/
theorem local_switch_freezes_witness :
    (handleAction (modeToggleOnchange (onUpdate ⟨true, ⟨0, 0⟩⟩ ⟨98, 50⟩) false).1
        (JsValue.str "FILL")).1.localState = localSwitch ⟨98, 50⟩ (JsValue.str "FILL") ∧
    localSwitch ⟨98, 50⟩ (JsValue.str "FILL") = ⟨100, 50⟩ :=
  ⟨(local_switch_freezes ⟨true, ⟨0, 0⟩⟩).2.2.2.2 ⟨98, 50⟩ (JsValue.str "FILL") rfl, by decide⟩

/-! ## Lemmas on strings -/

theorem splitChars_of_not_mem (sep : Char) (a : List Char) (h : sep ∉ a) :
    splitChars sep a = [a] := by
  induction a with
  | nil => rfl
  | cons c cs ih =>
    rw [List.mem_cons, not_or] at h
    simp only [splitChars]
    rw [if_neg (fun e => h.1 e.symm), ih h.2]
    rfl

theorem splitChars_append_sep (sep : Char) (a rest : List Char) (h : sep ∉ a) :
    splitChars sep (a ++ sep :: rest) = a :: splitChars sep rest := by
  induction a with
  | nil => simp [splitChars]
  | cons c cs ih =>
    rw [List.mem_cons, not_or] at h
    have hc : ¬ c = sep := fun e => h.1 e.symm
    have hrec := ih h.2
    rw [List.cons_append, splitChars]
    simp only [hrec, hc, if_false, List.headD_cons, List.tail_cons]

theorem dropPattern_append (pat rest : List Char) : dropPattern pat (pat ++ rest) = some rest := by
  induction pat with
  | nil => cases rest <;> rfl
  | cons p ps ih =>
    rw [List.cons_append, dropPattern, if_pos rfl, ih]

theorem dropPattern_of_head_not_mem (p : Char) (ps s : List Char) (h : p ∉ s) :
    dropPattern (p :: ps) s = none := by
  cases s with
  | nil => rfl
  | cons c cs =>
    rw [List.mem_cons, not_or] at h
    simp only [dropPattern]
    rw [if_neg h.1]

theorem replaceChars_of_head_not_mem (p : Char) (ps rep s : List Char) (h : p ∉ s) :
    replaceChars (p :: ps) rep s = s := by
  induction s with
  | nil => rfl
  | cons c cs ih =>
    have h2 : p ∉ cs := fun hm => h (List.mem_cons_of_mem c hm)
    simp only [replaceChars]
    rw [dropPattern_of_head_not_mem p ps (c :: cs) h, ih h2]

theorem replaceChars_append (p : Char) (ps rep rest : List Char) :
    replaceChars (p :: ps) rep ((p :: ps) ++ rest) = rep ++ rest := by
  have h := dropPattern_append (p :: ps) rest
  simp only [List.cons_append] at h ⊢
  simp only [replaceChars]
  rw [h]

theorem maskIP_of_split (ip p0 p1 p2 p3 : String) (hne : ip ≠ "")
    (hsplit : jsSplit (jsReplace ip "::ffff:" "") '.' = [p0, p1, p2, p3]) :
    maskIP (some ip) = p0 ++ ".***." ++ p2 ++ ".***" := by
  simp only [maskIP]
  rw [if_neg hne, hsplit]

theorem maskIP_of_not_four (ip : String) (hne : ip ≠ "")
    (hlen : (jsSplit (jsReplace ip "::ffff:" "") '.').length ≠ 4) :
    maskIP (some ip) = "Anonymous" := by
  simp only [maskIP]
  rw [if_neg hne]
  generalize jsSplit (jsReplace ip "::ffff:" "") '.' = parts at hlen
  rcases parts with _ | ⟨a, _ | ⟨b, _ | ⟨c, _ | ⟨d, _ | ⟨e, l⟩⟩⟩⟩⟩ <;> first | rfl | simp at hlen

/-- The four dot-separated parts of a dotted address whose parts hold neither
a dot nor a colon: the replacement finds nothing to remove and the split gives
the parts back. -/
theorem jsSplit_dotted (a b c d : String)
    (ha : '.' ∉ a.data ∧ ':' ∉ a.data) (hb : '.' ∉ b.data ∧ ':' ∉ b.data)
    (hc : '.' ∉ c.data ∧ ':' ∉ c.data) (hd : '.' ∉ d.data ∧ ':' ∉ d.data) :
    jsSplit (jsReplace (a ++ "." ++ b ++ "." ++ c ++ "." ++ d) "::ffff:" "") '.' =
      [a, b, c, d] := by
  have hcolon : ':' ∉ (a ++ "." ++ b ++ "." ++ c ++ "." ++ d).data := by
    simp only [String.data_append, List.mem_append, not_or]
    exact ⟨⟨⟨⟨⟨⟨ha.2, by decide⟩, hb.2⟩, by decide⟩, hc.2⟩, by decide⟩, hd.2⟩
  have hrep : jsReplace (a ++ "." ++ b ++ "." ++ c ++ "." ++ d) "::ffff:" "" =
      a ++ "." ++ b ++ "." ++ c ++ "." ++ d := by
    unfold jsReplace
    have hpat : ("::ffff:" : String).data = ':' :: [':', 'f', 'f', 'f', 'f', ':'] := rfl
    rw [hpat, replaceChars_of_head_not_mem _ _ _ _ hcolon]
  rw [hrep]
  unfold jsSplit
  have hdata : (a ++ "." ++ b ++ "." ++ c ++ "." ++ d).data =
      a.data ++ '.' :: (b.data ++ '.' :: (c.data ++ '.' :: d.data)) := by
    simp only [String.data_append]
    simp
  rw [hdata, splitChars_append_sep _ _ _ ha.1, splitChars_append_sep _ _ _ hb.1,
    splitChars_append_sep _ _ _ hc.1, splitChars_of_not_mem _ _ hd.1]
  rfl

theorem dotted_ne_empty (x a b c d : String) :
    x ++ a ++ "." ++ b ++ "." ++ c ++ "." ++ d ≠ "" := by
  intro h
  have h2 := congrArg String.data h
  simp at h2

/-- The same as `jsSplit_dotted` for an IPv4-mapped address: the leading
`::ffff:` is what the replacement removes. -/
theorem jsSplit_mapped_dotted (a b c d : String)
    (ha : '.' ∉ a.data ∧ ':' ∉ a.data) (hb : '.' ∉ b.data ∧ ':' ∉ b.data)
    (hc : '.' ∉ c.data ∧ ':' ∉ c.data) (hd : '.' ∉ d.data ∧ ':' ∉ d.data) :
    jsSplit (jsReplace ("::ffff:" ++ a ++ "." ++ b ++ "." ++ c ++ "." ++ d) "::ffff:" "") '.' =
      [a, b, c, d] := by
  have hrep : jsReplace ("::ffff:" ++ a ++ "." ++ b ++ "." ++ c ++ "." ++ d) "::ffff:" "" =
      a ++ "." ++ b ++ "." ++ c ++ "." ++ d := by
    unfold jsReplace
    have hpat : ("::ffff:" : String).data = ':' :: [':', 'f', 'f', 'f', 'f', ':'] := rfl
    have hdata : ("::ffff:" ++ a ++ "." ++ b ++ "." ++ c ++ "." ++ d).data =
        (':' :: [':', 'f', 'f', 'f', 'f', ':']) ++
          (a ++ "." ++ b ++ "." ++ c ++ "." ++ d).data := by
      simp only [String.data_append]
      simp
    rw [hpat, hdata, replaceChars_append]
    rfl
  rw [hrep]
  unfold jsSplit
  have hdata : (a ++ "." ++ b ++ "." ++ c ++ "." ++ d).data =
      a.data ++ '.' :: (b.data ++ '.' :: (c.data ++ '.' :: d.data)) := by
    simp only [String.data_append]
    simp
  rw [hdata, splitChars_append_sep _ _ _ ha.1, splitChars_append_sep _ _ _ hb.1,
    splitChars_append_sep _ _ _ hc.1, splitChars_of_not_mem _ _ hd.1]
  rfl

/-! ## Claims on the identity mask -/

/-- C17, as stated, fails: a missing address and the address `localhost`, which
does not split into four parts, are both unresolvable, and `maskIP` returns
`UNKNOWN` for the first and `Anonymous` for the second; so do the connection
handler's identities for an `x-forwarded-for` header with an empty first entry
and for the IPv6 loopback address. -/
theorem unresolved_identity_counterexample :
    (jsSplit (jsReplace "localhost" "::ffff:" "") '.').length ≠ 4 ∧
    maskIP none = "UNKNOWN" ∧
    maskIP (some "localhost") = "Anonymous" ∧
    maskIP none ≠ maskIP (some "localhost") ∧
    maskedIpOf ⟨some " , 10.0.0.1", "::1"⟩ = "UNKNOWN" ∧
    maskedIpOf ⟨none, "::1"⟩ = "Anonymous" := by
  decide

/-- C17, amended. For an input from which no masked address can be derived,
`maskIP` is defined and returns one of two fixed strings, by the reason:
`UNKNOWN` for a missing or empty address, and `Anonymous` for a non-empty
string that does not split into exactly four dot-separated parts after the
removal of `::ffff:`. -/
theorem unresolved_identity_amended :
    maskIP none = "UNKNOWN" ∧
    maskIP (some "") = "UNKNOWN" ∧
    (∀ ip : String, ip ≠ "" →
      (jsSplit (jsReplace ip "::ffff:" "") '.').length ≠ 4 →
      maskIP (some ip) = "Anonymous") :=
  ⟨rfl, rfl, maskIP_of_not_four⟩

/-- C17 amended, for the IPv6 loopback address `::1` and for an address of
five parts. -/
theorem unresolved_identity_amended_witness :
    maskIP (some "::1") = "Anonymous" ∧ maskIP (some "1.2.3.4.5") = "Anonymous" :=
  ⟨unresolved_identity_amended.2.2 "::1" (by decide) (by decide),
    unresolved_identity_amended.2.2 "1.2.3.4.5" (by decide) (by decide)⟩

/-- C18. Masking format: for a non-empty address that, after the removal of
the first `::ffff:`, splits on `.` into exactly four parts `p0 p1 p2 p3`,
`maskIP` returns `p0.***.p2.***`; the result is the same for two such
addresses with the same first and third parts; and a dotted address
`a.b.c.d` whose parts hold neither a dot nor a colon, with or without a
leading `::ffff:`, is such an address with the parts `a b c d`. -/
theorem masking_format :
    (∀ ip p0 p1 p2 p3 : String, ip ≠ "" →
      jsSplit (jsReplace ip "::ffff:" "") '.' = [p0, p1, p2, p3] →
      maskIP (some ip) = p0 ++ ".***." ++ p2 ++ ".***") ∧
    (∀ ip ip2 p0 p1 p2 p3 q1 q3 : String, ip ≠ "" → ip2 ≠ "" →
      jsSplit (jsReplace ip "::ffff:" "") '.' = [p0, p1, p2, p3] →
      jsSplit (jsReplace ip2 "::ffff:" "") '.' = [p0, q1, p2, q3] →
      maskIP (some ip) = maskIP (some ip2)) ∧
    (∀ a b c d : String,
      '.' ∉ a.data ∧ ':' ∉ a.data → '.' ∉ b.data ∧ ':' ∉ b.data →
      '.' ∉ c.data ∧ ':' ∉ c.data → '.' ∉ d.data ∧ ':' ∉ d.data →
      maskIP (some (a ++ "." ++ b ++ "." ++ c ++ "." ++ d)) = a ++ ".***." ++ c ++ ".***" ∧
      maskIP (some ("::ffff:" ++ a ++ "." ++ b ++ "." ++ c ++ "." ++ d)) =
        a ++ ".***." ++ c ++ ".***") := by
  refine ⟨maskIP_of_split, ?_, ?_⟩
  · intro ip ip2 p0 p1 p2 p3 q1 q3 h1 h2 hs1 hs2
    rw [maskIP_of_split ip p0 p1 p2 p3 h1 hs1, maskIP_of_split ip2 p0 q1 p2 q3 h2 hs2]
  · intro a b c d ha hb hc hd
    constructor
    · have hne : a ++ "." ++ b ++ "." ++ c ++ "." ++ d ≠ "" := by
        have := dotted_ne_empty "" a b c d
        simpa using this
      exact maskIP_of_split _ a b c d hne (jsSplit_dotted a b c d ha hb hc hd)
    · exact maskIP_of_split _ a b c d (dotted_ne_empty "::ffff:" a b c d)
        (jsSplit_mapped_dotted a b c d ha hb hc hd)

/-- C18, for the address of the source comment, `111.222.333.444`, and for the
IPv4-mapped address `::ffff:192.168.1.20`. -/
theorem masking_format_witness :
    maskIP (some "111.222.333.444") = "111" ++ ".***." ++ "333" ++ ".***" ∧
    "111" ++ ".***." ++ "333" ++ ".***" = "111.***.333.***" ∧
    maskIP (some ("::ffff:" ++ "192" ++ "." ++ "168" ++ "." ++ "1" ++ "." ++ "20")) =
      "192" ++ ".***." ++ "1" ++ ".***" :=
  ⟨masking_format.1 "111.222.333.444" "111" "222" "333" "444" (by decide) (by decide),
    by decide,
    (masking_format.2.2 "192" "168" "1" "20" (by decide) (by decide) (by decide)
      (by decide)).2⟩

/-! ## Lemmas on reachable server states -/

theorem actionSwitch_even (s : State) (p : JsValue) (h : EvenState s) :
    EvenState (actionSwitch s p).1 := by
  obtain ⟨w, t⟩ := s
  simp only [EvenState] at h
  simp only [actionSwitch, EvenState, Math.min, Math.max]
  split_ifs <;> dsimp only <;> omega

theorem step_globalState (srv : Server) (e : Event) :
    (step srv e).1.globalState = srv.globalState ∨
      ∃ p, (step srv e).1.globalState = (actionSwitch srv.globalState p).1 := by
  cases e with
  | connection h => exact Or.inl rfl
  | action id payload =>
    rcases hs : srv.socket? id with _ | sock
    · simp only [step, hs]; exact Or.inl trivial
    · simp only [step, hs]
      exact Or.inr ⟨payload, actionHandler_globalState srv payload⟩
  | disconnect id =>
    rcases hs : srv.socket? id with _ | sock
    · simp only [step, hs]; exact Or.inl trivial
    · simp only [step, hs]; exact Or.inl rfl

theorem run_even (evs : List Event) :
    ∀ srv : Server, EvenState srv.globalState → EvenState (run srv evs).1.globalState := by
  induction evs with
  | nil => intro srv h; exact h
  | cons e es ih =>
    intro srv h
    have hstep : EvenState (step srv e).1.globalState := by
      rcases step_globalState srv e with h1 | ⟨p, h1⟩
      · rw [h1]; exact h
      · rw [h1]; exact actionSwitch_even _ _ h
    exact ih (step srv e).1 hstep

theorem serverTrajectory_even (ps : List JsValue) :
    ∀ srv : Server, EvenState srv.globalState →
      ∀ s ∈ serverTrajectory srv ps, EvenState s := by
  induction ps with
  | nil => intro srv _ s hs; simp [serverTrajectory] at hs
  | cons p ps ih =>
    intro srv h s hs
    have hstep : EvenState (actionHandler srv p).1.globalState := by
      rw [actionHandler_globalState]; exact actionSwitch_even _ _ h
    simp only [serverTrajectory, List.mem_cons] at hs
    rcases hs with rfl | hs
    · exact hstep
    · exact ih _ hstep s hs

theorem run_inBounds (evs : List Event) :
    ∀ srv : Server, InBounds srv.globalState → InBounds (run srv evs).1.globalState := by
  induction evs with
  | nil => intro srv h; exact h
  | cons e es ih =>
    intro srv h
    have hstep : InBounds (step srv e).1.globalState := by
      rcases step_globalState srv e with h1 | ⟨p, h1⟩
      · rw [h1]; exact h
      · rw [h1]; exact actionSwitch_inBounds _ _ h
    exact ih (step srv e).1 hstep

/-! ## Claim on the exact step -/

/-- C2. Exact delta rule of the server's action handler: in the state the
server holds after any list of events from its initial state, both fields are
integers in [0,100], and each of the four actions changes its target field by
exactly 2 (`+2` for FILL/HEAT, `-2` for DRAIN/COOL) when that field is not at
the boundary the action moves toward, by 0 when it is at that boundary, and
leaves the other field unchanged. -/
theorem delta_rule (evs : List Event) :
    InBounds (run initialServer evs).1.globalState ∧
    (((run initialServer evs).1.globalState.waterLevel < 100 →
        (stateAfter (run initialServer evs).1 "FILL").waterLevel =
          (run initialServer evs).1.globalState.waterLevel + 2) ∧
      ((run initialServer evs).1.globalState.waterLevel = 100 →
        (stateAfter (run initialServer evs).1 "FILL").waterLevel =
          (run initialServer evs).1.globalState.waterLevel) ∧
      (stateAfter (run initialServer evs).1 "FILL").temperature =
        (run initialServer evs).1.globalState.temperature) ∧
    (((run initialServer evs).1.globalState.waterLevel > 0 →
        (stateAfter (run initialServer evs).1 "DRAIN").waterLevel =
          (run initialServer evs).1.globalState.waterLevel - 2) ∧
      ((run initialServer evs).1.globalState.waterLevel = 0 →
        (stateAfter (run initialServer evs).1 "DRAIN").waterLevel =
          (run initialServer evs).1.globalState.waterLevel) ∧
      (stateAfter (run initialServer evs).1 "DRAIN").temperature =
        (run initialServer evs).1.globalState.temperature) ∧
    (((run initialServer evs).1.globalState.temperature < 100 →
        (stateAfter (run initialServer evs).1 "HEAT").temperature =
          (run initialServer evs).1.globalState.temperature + 2) ∧
      ((run initialServer evs).1.globalState.temperature = 100 →
        (stateAfter (run initialServer evs).1 "HEAT").temperature =
          (run initialServer evs).1.globalState.temperature) ∧
      (stateAfter (run initialServer evs).1 "HEAT").waterLevel =
        (run initialServer evs).1.globalState.waterLevel) ∧
    (((run initialServer evs).1.globalState.temperature > 0 →
        (stateAfter (run initialServer evs).1 "COOL").temperature =
          (run initialServer evs).1.globalState.temperature - 2) ∧
      ((run initialServer evs).1.globalState.temperature = 0 →
        (stateAfter (run initialServer evs).1 "COOL").temperature =
          (run initialServer evs).1.globalState.temperature) ∧
      (stateAfter (run initialServer evs).1 "COOL").waterLevel =
        (run initialServer evs).1.globalState.waterLevel) := by
  have hE := run_even evs initialServer (by decide)
  have hB := run_inBounds evs initialServer (by decide)
  generalize (run initialServer evs).1 = srv at hE hB ⊢
  refine ⟨hB, ?_⟩
  obtain ⟨g, u, ss, n⟩ := srv
  obtain ⟨w, t⟩ := g
  simp only [EvenState] at hE
  simp only [InBounds] at hB
  simp only [stateAfter, actionHandler_globalState]
  rw [actionSwitch_fill, actionSwitch_drain, actionSwitch_heat, actionSwitch_cool]
  simp only [Math.min, Math.max]
  refine ⟨⟨?_, ?_, ?_⟩, ⟨?_, ?_, ?_⟩, ⟨?_, ?_, ?_⟩, ⟨?_, ?_, ?_⟩⟩ <;>
    split_ifs <;> dsimp only <;> omega

/-- C2, on the server after one connection and the actions `FILL`, `HEAT`: its
state is `{2, 2}`; a further `FILL` gives level 4 and a further `COOL` gives
temperature 0; and on the initial server, whose level is 0, `DRAIN` leaves the
level at 0. -/
theorem delta_rule_witness :
    (run initialServer [Event.connection ⟨none, "10.1.2.3"⟩,
      Event.action 0 (JsValue.str "FILL"),
      Event.action 0 (JsValue.str "HEAT")]).1.globalState = ⟨2, 2⟩ ∧
    (stateAfter (run initialServer [Event.connection ⟨none, "10.1.2.3"⟩,
      Event.action 0 (JsValue.str "FILL"),
      Event.action 0 (JsValue.str "HEAT")]).1 "FILL").waterLevel =
      (run initialServer [Event.connection ⟨none, "10.1.2.3"⟩,
      Event.action 0 (JsValue.str "FILL"),
      Event.action 0 (JsValue.str "HEAT")]).1.globalState.waterLevel + 2 ∧
    (stateAfter (run initialServer [Event.connection ⟨none, "10.1.2.3"⟩,
      Event.action 0 (JsValue.str "FILL"),
      Event.action 0 (JsValue.str "HEAT")]).1 "COOL").temperature =
      (run initialServer [Event.connection ⟨none, "10.1.2.3"⟩,
      Event.action 0 (JsValue.str "FILL"),
      Event.action 0 (JsValue.str "HEAT")]).1.globalState.temperature - 2 ∧
    (stateAfter (run initialServer []).1 "DRAIN").waterLevel =
      (run initialServer []).1.globalState.waterLevel :=
  ⟨by decide,
    (delta_rule [Event.connection ⟨none, "10.1.2.3"⟩, Event.action 0 (JsValue.str "FILL"),
      Event.action 0 (JsValue.str "HEAT")]).2.1.1 (by decide),
    (delta_rule [Event.connection ⟨none, "10.1.2.3"⟩, Event.action 0 (JsValue.str "FILL"),
      Event.action 0 (JsValue.str "HEAT")]).2.2.2.2.1 (by decide),
    (delta_rule []).2.2.1.2.1 (by decide)⟩

/-! ## Claim on parity -/

/-- C19. Parity invariant: after any list of events from the initial server,
and in every state of the trajectory of any sequence of action payloads from
it, both fields are even; and on a server whose fields are even, an action
whose field is not at the boundary it moves toward changes that field by
exactly 2, never by 1. -/
theorem parity_invariant :
    (∀ evs : List Event, EvenState (run initialServer evs).1.globalState) ∧
    (∀ ps : List JsValue, ∀ s ∈ serverTrajectory initialServer ps, EvenState s) ∧
    (∀ srv : Server, EvenState srv.globalState →
      (srv.globalState.waterLevel < 100 →
        (stateAfter srv "FILL").waterLevel = srv.globalState.waterLevel + 2) ∧
      (srv.globalState.waterLevel > 0 →
        (stateAfter srv "DRAIN").waterLevel = srv.globalState.waterLevel - 2) ∧
      (srv.globalState.temperature < 100 →
        (stateAfter srv "HEAT").temperature = srv.globalState.temperature + 2) ∧
      (srv.globalState.temperature > 0 →
        (stateAfter srv "COOL").temperature = srv.globalState.temperature - 2) ∧
      (stateAfter srv "FILL").waterLevel ≠ srv.globalState.waterLevel + 1 ∧
      (stateAfter srv "DRAIN").waterLevel ≠ srv.globalState.waterLevel - 1 ∧
      (stateAfter srv "HEAT").temperature ≠ srv.globalState.temperature + 1 ∧
      (stateAfter srv "COOL").temperature ≠ srv.globalState.temperature - 1) := by
  refine ⟨?_, ?_, ?_⟩
  · intro evs
    exact run_even evs initialServer (by decide)
  · intro ps
    exact serverTrajectory_even ps initialServer (by decide)
  · intro srv h
    obtain ⟨g, u, ss, n⟩ := srv
    obtain ⟨w, t⟩ := g
    simp only [EvenState] at h
    simp only [stateAfter, actionHandler_globalState]
    rw [actionSwitch_fill, actionSwitch_drain, actionSwitch_heat, actionSwitch_cool]
    simp only [Math.min, Math.max]
    refine ⟨?_, ?_, ?_, ?_, ?_, ?_, ?_, ?_⟩ <;> split_ifs <;> dsimp only <;> omega

/-- C19, for the server after one connection and the actions `FILL`, `FILL`,
`HEAT`: its state is `{4, 2}`, even, and a further `DRAIN` gives level 2. -/
theorem parity_invariant_witness :
    (run initialServer [Event.connection ⟨none, "10.1.2.3"⟩,
      Event.action 0 (JsValue.str "FILL"), Event.action 0 (JsValue.str "FILL"),
      Event.action 0 (JsValue.str "HEAT")]).1.globalState = ⟨4, 2⟩ ∧
    EvenState (run initialServer [Event.connection ⟨none, "10.1.2.3"⟩,
      Event.action 0 (JsValue.str "FILL"), Event.action 0 (JsValue.str "FILL"),
      Event.action 0 (JsValue.str "HEAT")]).1.globalState ∧
    (stateAfter (serverWith ⟨4, 2⟩) "DRAIN").waterLevel =
      (serverWith ⟨4, 2⟩).globalState.waterLevel - 2 :=
  ⟨by decide, parity_invariant.1 _,
    (parity_invariant.2.2 (serverWith ⟨4, 2⟩) (by decide)).2.1 (by decide)⟩

/-! ## Lemmas on presence along a run -/

theorem socket?_some (srv : Server) (id : Nat) (sock : Socket)
    (h : srv.socket? id = some sock) : sock ∈ srv.sockets ∧ sock.id = id := by
  unfold Server.socket? at h
  exact ⟨List.mem_of_find?_eq_some h, by simpa using List.find?_some h⟩

theorem step_action_none (srv : Server) (id : Nat) (p : JsValue)
    (h : srv.socket? id = none) : step srv (Event.action id p) = (srv, []) := by
  simp only [step, h]

theorem step_action_some (srv : Server) (id : Nat) (p : JsValue) (sock : Socket)
    (h : srv.socket? id = some sock) :
    step srv (Event.action id p) = actionHandler srv p := by
  simp only [step, h]

theorem step_disconnect_none (srv : Server) (id : Nat)
    (h : srv.socket? id = none) : step srv (Event.disconnect id) = (srv, []) := by
  simp only [step, h]

theorem step_disconnect_some (srv : Server) (id : Nat) (sock : Socket)
    (h : srv.socket? id = some sock) :
    step srv (Event.disconnect id) = disconnectHandler srv sock := by
  simp only [step, h]

theorem actionHandler_frame (srv : Server) (p : JsValue) :
    (actionHandler srv p).1.connectedUsers = srv.connectedUsers ∧
    (actionHandler srv p).1.sockets = srv.sockets ∧
    (actionHandler srv p).1.nextId = srv.nextId := by
  simp only [actionHandler]
  split_ifs <;> exact ⟨rfl, rfl, rfl⟩

theorem step_action_frame (srv : Server) (id : Nat) (p : JsValue) :
    (step srv (Event.action id p)).1.connectedUsers = srv.connectedUsers ∧
    (step srv (Event.action id p)).1.sockets = srv.sockets ∧
    (step srv (Event.action id p)).1.nextId = srv.nextId := by
  rcases hs : srv.socket? id with _ | sock
  · rw [step_action_none srv id p hs]
    exact ⟨rfl, rfl, rfl⟩
  · rw [step_action_some srv id p sock hs]
    exact actionHandler_frame srv p

theorem step_idsNodup (srv : Server) (e : Event) (hB : srv.SocketsBelow)
    (hN : srv.IdsNodup) : (step srv e).1.IdsNodup := by
  cases e with
  | connection h =>
    show (List.map Socket.id (srv.sockets ++ [⟨srv.nextId, maskedIpOf h⟩])).Nodup
    rw [List.map_append, List.nodup_append]
    refine ⟨hN, List.nodup_singleton _, ?_⟩
    intro a ha hb
    simp only [List.map_cons, List.map_nil, List.mem_singleton] at hb
    rw [List.mem_map] at ha
    obtain ⟨t, ht, rfl⟩ := ha
    have := hB t ht
    omega
  | action id payload =>
    unfold Server.IdsNodup Server.connectedIds
    rw [(step_action_frame srv id payload).2.1]
    exact hN
  | disconnect id =>
    rcases hs : srv.socket? id with _ | sock
    · rw [step_disconnect_none srv id hs]
      exact hN
    · rw [step_disconnect_some srv id sock hs]
      exact List.Nodup.sublist (List.Sublist.map Socket.id (List.filter_sublist srv.sockets)) hN

theorem socket_eq_of_id_eq (srv : Server) (hN : srv.IdsNodup) (s t : Socket)
    (hs : s ∈ srv.sockets) (ht : t ∈ srv.sockets) (h : s.id = t.id) : s = t :=
  List.inj_on_of_nodup_map hN hs ht h

theorem step_noGhost (srv : Server) (e : Event) (hN : srv.IdsNodup)
    (hG : srv.NoGhost) : (step srv e).1.NoGhost := by
  cases e with
  | connection h =>
    intro x hx
    have hx2 := (JsSet.mem_add srv.connectedUsers (maskedIpOf h) x).mp hx
    show x ∈ List.map Socket.maskedIp (srv.sockets ++ [⟨srv.nextId, maskedIpOf h⟩])
    rw [List.map_append, List.mem_append]
    rcases hx2 with hx2 | rfl
    · exact Or.inl (hG x hx2)
    · exact Or.inr (List.mem_singleton.mpr rfl)
  | action id payload =>
    obtain ⟨h1, h2, _⟩ := step_action_frame srv id payload
    intro x hx
    unfold Server.openIdentities
    rw [h2]
    rw [h1] at hx
    exact hG x hx
  | disconnect id =>
    rcases hs : srv.socket? id with _ | sock
    · rw [step_disconnect_none srv id hs]
      exact hG
    · rw [step_disconnect_some srv id sock hs]
      obtain ⟨hmem, hid⟩ := socket?_some srv id sock hs
      intro x hx
      obtain ⟨hx1, hx2⟩ := (JsSet.mem_delete srv.connectedUsers sock.maskedIp x).mp hx
      have hopen := hG x hx1
      unfold Server.openIdentities at hopen
      rw [List.mem_map] at hopen
      obtain ⟨t, ht, rfl⟩ := hopen
      show t.maskedIp ∈ List.map Socket.maskedIp (srv.sockets.filter (fun s => s.id != sock.id))
      rw [List.mem_map]
      refine ⟨t, ?_, rfl⟩
      rw [List.mem_filter]
      refine ⟨ht, ?_⟩
      have hne : t.id ≠ sock.id := by
        intro heq
        exact hx2 (congrArg Socket.maskedIp (socket_eq_of_id_eq srv hN t sock ht hmem heq))
      simpa using hne

theorem step_allPresent (srv : Server) (e : Event)
    (hD : ∀ id, e = Event.disconnect id → ¬ srv.SharesIdentity id)
    (hA : srv.AllPresent) : (step srv e).1.AllPresent := by
  cases e with
  | connection h =>
    intro x hx
    have hx' : x ∈ List.map Socket.maskedIp (srv.sockets ++ [⟨srv.nextId, maskedIpOf h⟩]) := hx
    rw [List.map_append, List.mem_append] at hx'
    apply (JsSet.mem_add srv.connectedUsers (maskedIpOf h) x).mpr
    rcases hx' with hx' | hx'
    · exact Or.inl (hA x hx')
    · exact Or.inr (List.mem_singleton.mp hx')
  | action id payload =>
    obtain ⟨h1, h2, _⟩ := step_action_frame srv id payload
    intro x hx
    unfold Server.openIdentities at hx
    rw [h2] at hx
    rw [h1]
    exact hA x hx
  | disconnect id =>
    rcases hs : srv.socket? id with _ | sock
    · rw [step_disconnect_none srv id hs]
      exact hA
    · rw [step_disconnect_some srv id sock hs]
      obtain ⟨hmem, hid⟩ := socket?_some srv id sock hs
      intro x hx
      have hx' : x ∈ List.map Socket.maskedIp
          (srv.sockets.filter (fun s => s.id != sock.id)) := hx
      rw [List.mem_map] at hx'
      obtain ⟨t, ht, rfl⟩ := hx'
      rw [List.mem_filter] at ht
      obtain ⟨ht1, ht2⟩ := ht
      have hne : t.id ≠ sock.id := by simpa using ht2
      apply (JsSet.mem_delete srv.connectedUsers sock.maskedIp t.maskedIp).mpr
      refine ⟨hA _ (List.mem_map.mpr ⟨t, ht1, rfl⟩), ?_⟩
      intro heq
      exact hD id rfl ⟨sock, hmem, t, ht1, hid, by rw [← hid]; exact hne, heq⟩

theorem run_wellFormed_noGhost (evs : List Event) :
    ∀ srv : Server, srv.SocketsBelow → srv.IdsNodup → srv.NoGhost →
      (run srv evs).1.NoGhost := by
  induction evs with
  | nil => intro srv _ _ hG; exact hG
  | cons e es ih =>
    intro srv hB hN hG
    exact ih (step srv e).1 (step_socketsBelow srv e hB) (step_idsNodup srv e hB hN)
      (step_noGhost srv e hN hG)

theorem run_allPresent (evs : List Event) :
    ∀ srv : Server, srv.AllPresent → NoSharedDisconnect srv evs →
      (run srv evs).1.AllPresent := by
  induction evs with
  | nil => intro srv hA _; exact hA
  | cons e es ih =>
    intro srv hA hD
    cases e with
    | connection h =>
      exact ih _ (step_allPresent srv _ (by intro id he; simp at he) hA) hD
    | action id payload =>
      exact ih _ (step_allPresent srv _ (by intro id he; simp at he) hA) hD
    | disconnect id =>
      obtain ⟨hD1, hD2⟩ := hD
      refine ih _ (step_allPresent srv _ ?_ hA) hD2
      intro id2 he
      cases he
      exact hD1

theorem initialServer_invariants :
    initialServer.IdsNodup ∧ initialServer.NoGhost ∧ initialServer.AllPresent := by
  refine ⟨List.nodup_nil, ?_, ?_⟩
  · intro x hx; simp [initialServer, JsSet.empty] at hx
  · intro x hx; simp [initialServer, Server.openIdentities] at hx

/-! ## Claims on presence along a run -/

/-- C11, as stated, fails: after two connections from the address `10.1.2.3`
and the disconnection of the first, socket 1 is open with the identity
`10.***.2.***`, and the presence set is empty. -/
theorem presence_equals_connected_counterexample :
    (run initialServer [Event.connection ⟨none, "10.1.2.3"⟩,
      Event.connection ⟨none, "10.1.2.3"⟩, Event.disconnect 0]).1.sockets =
        [⟨1, "10.***.2.***"⟩] ∧
    (run initialServer [Event.connection ⟨none, "10.1.2.3"⟩,
      Event.connection ⟨none, "10.1.2.3"⟩, Event.disconnect 0]).1.connectedUsers.items = [] ∧
    ¬ (∀ x, x ∈ (run initialServer [Event.connection ⟨none, "10.1.2.3"⟩,
          Event.connection ⟨none, "10.1.2.3"⟩, Event.disconnect 0]).1.connectedUsers.items ↔
        x ∈ (run initialServer [Event.connection ⟨none, "10.1.2.3"⟩,
          Event.connection ⟨none, "10.1.2.3"⟩, Event.disconnect 0]).1.openIdentities) := by
  refine ⟨by decide, by decide, ?_⟩
  intro h
  have h1 := (h "10.***.2.***").mpr (by decide)
  revert h1
  decide

/-- C11, amended. After any list of events from the initial server in which
no socket disconnected while another connected socket had the same identity,
the presence set holds exactly the identities of the open connections. -/
theorem presence_equals_connected_amended (evs : List Event)
    (h : NoSharedDisconnect initialServer evs) (x : String) :
    x ∈ (run initialServer evs).1.connectedUsers.items ↔
      x ∈ (run initialServer evs).1.openIdentities := by
  obtain ⟨hN, hG, hA⟩ := initialServer_invariants
  constructor
  · exact run_wellFormed_noGhost evs initialServer initialServer_socketsBelow hN hG x
  · exact run_allPresent evs initialServer hA h x

/-- C11 amended, on a run where two sockets with the same identity stay open
and a third one, with an identity of its own, connects and leaves: the
presence set and the open identities both hold `10.***.2.***` only. -/
theorem presence_equals_connected_amended_witness :
    NoSharedDisconnect initialServer
      [Event.connection ⟨none, "10.1.2.3"⟩, Event.connection ⟨none, "10.9.2.9"⟩,
        Event.connection ⟨none, "192.168.1.20"⟩, Event.disconnect 2] ∧
    ("10.***.2.***" ∈ (run initialServer
      [Event.connection ⟨none, "10.1.2.3"⟩, Event.connection ⟨none, "10.9.2.9"⟩,
        Event.connection ⟨none, "192.168.1.20"⟩, Event.disconnect 2]).1.connectedUsers.items ↔
      "10.***.2.***" ∈ (run initialServer
      [Event.connection ⟨none, "10.1.2.3"⟩, Event.connection ⟨none, "10.9.2.9"⟩,
        Event.connection ⟨none, "192.168.1.20"⟩, Event.disconnect 2]).1.openIdentities) ∧
    (run initialServer
      [Event.connection ⟨none, "10.1.2.3"⟩, Event.connection ⟨none, "10.9.2.9"⟩,
        Event.connection ⟨none, "192.168.1.20"⟩, Event.disconnect 2]).1.connectedUsers.items =
      ["10.***.2.***"] ∧
    (run initialServer
      [Event.connection ⟨none, "10.1.2.3"⟩, Event.connection ⟨none, "10.9.2.9"⟩,
        Event.connection ⟨none, "192.168.1.20"⟩, Event.disconnect 2]).1.openIdentities =
      ["10.***.2.***", "10.***.2.***"] :=
  ⟨by decide, presence_equals_connected_amended _ (by decide) "10.***.2.***",
    by decide, by decide⟩

/-- C20. No ghost presence entries: after any list of events from the initial
server, every identity in the presence set is the identity of a socket that
is connected. -/
theorem no_ghost_presence (evs : List Event) :
    ∀ x ∈ (run initialServer evs).1.connectedUsers.items,
      ∃ s ∈ (run initialServer evs).1.sockets, s.maskedIp = x := by
  obtain ⟨hN, hG, _⟩ := initialServer_invariants
  intro x hx
  have h := run_wellFormed_noGhost evs initialServer initialServer_socketsBelow hN hG x hx
  unfold Server.openIdentities at h
  rw [List.mem_map] at h
  exact h

/-- C20, on a run with a repeated disconnection and a disconnection of a
socket that never connected: the identity left in the presence set is that of
socket 1, which is connected. -/
theorem no_ghost_presence_witness :
    "192.***.1.***" ∈ (run initialServer
      [Event.connection ⟨none, "10.1.2.3"⟩, Event.connection ⟨none, "::ffff:192.168.1.20"⟩,
        Event.disconnect 0, Event.disconnect 0, Event.disconnect 7]).1.connectedUsers.items ∧
    (∃ s ∈ (run initialServer
      [Event.connection ⟨none, "10.1.2.3"⟩, Event.connection ⟨none, "::ffff:192.168.1.20"⟩,
        Event.disconnect 0, Event.disconnect 0, Event.disconnect 7]).1.sockets,
      s.maskedIp = "192.***.1.***") ∧
    (run initialServer
      [Event.connection ⟨none, "10.1.2.3"⟩, Event.connection ⟨none, "::ffff:192.168.1.20"⟩,
        Event.disconnect 0, Event.disconnect 0, Event.disconnect 7]).1.sockets =
      [⟨1, "192.***.1.***"⟩] :=
  ⟨by decide, no_ghost_presence _ "192.***.1.***" (by decide), by decide⟩

end SharedBath
